import Mathlib

/-!
Verification development for the vecDB repository (a sharded LSH vector
database written in Rust).  The Rust sources are embedded shallowly:

* machine integers (`u64`, `i64`, `usize`) become `Nat` / `Int` with explicit
  reductions modulo `2 ^ 64` where the source uses wrapping arithmetic or
  an `as u64` cast;
* `f32` values are abstracted to exact rationals (`Rat`); square roots use
  `ratSqrt` below, which agrees with the real square root on perfect squares,
  and all concrete inputs used in counterexamples and witnesses are chosen so
  that every square root involved is exact;
* `Option`-valued struct fields of the source (`Option<Vec<...>>`) are kept
  as `Option (List _)`;
* fallible operations return `Except`; a Rust panic is distinguished from a
  `Result::Err` by the `RunError` type below;
* `HashMap` iteration order, which Rust leaves unspecified and randomizes
  per process, is modelled by an explicit list giving the iteration order;
* wall-clock readings (`Utc::now`) are passed in as explicit arguments;
* file-system storage and the HTTP transport are out of scope; remote call
  outcomes are supplied to the coordinator functions as explicit inputs.

`std::hash::DefaultHasher` (used by `core/utils.rs::calculate_hash`) is
SipHash-1-3 with both keys zero; it is implemented below over byte lists,
together with the standard-library `Hash` encodings of the types the
repository hashes (`&str`/`String`, tuples, `Vec<u32>`, `i64`,
`BTreeMap<String,String>`), assuming a little-endian host as in the
deployment targets of the crate.
-/

namespace VecDB

/-- Modulus for 64-bit wrapping arithmetic. -/
def two64 : Nat := 18446744073709551616

/-- Wrapping 64-bit addition (`u64::wrapping_add`). -/
def add64 (a b : Nat) : Nat := (a + b) % two64

/-- Wrapping 64-bit multiplication (`u64::wrapping_mul`). -/
def mul64 (a b : Nat) : Nat := (a * b) % two64

/-- Bitwise xor; on arguments below `2 ^ 64` the result stays below `2 ^ 64`. -/
def xor64 (a b : Nat) : Nat := a ^^^ b

/-- Left rotation of a 64-bit word by `r` places (`u64::rotate_left`). -/
def rotl64 (a r : Nat) : Nat := ((a <<< r) % two64) ||| (a >>> (64 - r))

/-- State of the SipHash mixer: the four 64-bit lanes. -/
structure SipState where
  v0 : Nat
  v1 : Nat
  v2 : Nat
  v3 : Nat

/-- One SipHash round (the SIPROUND permutation). -/
def sipRound (s : SipState) : SipState :=
  let v0 := add64 s.v0 s.v1
  let v1 := rotl64 s.v1 13
  let v1 := xor64 v1 v0
  let v0 := rotl64 v0 32
  let v2 := add64 s.v2 s.v3
  let v3 := rotl64 s.v3 16
  let v3 := xor64 v3 v2
  let v0 := add64 v0 v3
  let v3 := rotl64 v3 21
  let v3 := xor64 v3 v0
  let v2 := add64 v2 v1
  let v1 := rotl64 v1 17
  let v1 := xor64 v1 v2
  let v2 := rotl64 v2 32
  ⟨v0, v1, v2, v3⟩

/-- Absorb one 8-byte message word into the state; SipHash-1-3 runs a single
compression round per word. -/
def sipCompress (s : SipState) (m : Nat) : SipState :=
  let s := { s with v3 := xor64 s.v3 m }
  let s := sipRound s
  { s with v0 := xor64 s.v0 m }

/-- Initial SipHash state for key `(0, 0)`, which is what
`DefaultHasher::new()` uses. -/
def sipInit : SipState :=
  ⟨0x736f6d6570736575, 0x646f72616e646f6d, 0x6c7967656e657261, 0x7465646279746573⟩

/-- Little-endian interpretation of a byte list as an unsigned integer. -/
def leValue : List Nat → Nat
  | [] => 0
  | b :: rest => b + 256 * leValue rest

/-- Little-endian byte encoding of `v` on `width` bytes. -/
def leBytes (width v : Nat) : List Nat :=
  (List.range width).map (fun i => v / 256 ^ i % 256)

/-- SipHash-1-3 of a byte stream with key `(0, 0)`: the hash a Rust
`DefaultHasher` returns after the same bytes were written to it. -/
def sipHash13 (bytes : List Nat) : Nat :=
  let len := bytes.length
  let full := len / 8
  let body := (List.range full).foldl
    (fun s i => sipCompress s (leValue ((bytes.drop (8 * i)).take 8))) sipInit
  let tail := ((len % 256) * 2 ^ 56) + leValue (bytes.drop (8 * full))
  let s := sipCompress body tail
  let s := { s with v2 := xor64 s.v2 0xff }
  let s := sipRound (sipRound (sipRound s))
  xor64 (xor64 s.v0 s.v1) (xor64 s.v2 s.v3)

/-- UTF-8 encoding of one character, as the byte list Rust would hash. -/
def utf8Char (c : Char) : List Nat :=
  let n := c.toNat
  if n < 0x80 then [n]
  else if n < 0x800 then [0xc0 + n / 64, 0x80 + n % 64]
  else if n < 0x10000 then [0xe0 + n / 4096, 0x80 + n / 64 % 64, 0x80 + n % 64]
  else [0xf0 + n / 262144, 0x80 + n / 4096 % 64, 0x80 + n / 64 % 64, 0x80 + n % 64]

/-- UTF-8 bytes of a string. -/
def utf8Bytes (s : String) : List Nat :=
  (s.data.map utf8Char).flatten

/-- Byte stream contributed by hashing a `&str` or `String`: its UTF-8 bytes
followed by the `0xff` terminator `Hasher::write_str` appends. -/
def strHashBytes (s : String) : List Nat :=
  utf8Bytes s ++ [0xff]

/-- Model of `core/utils.rs::calculate_hash` instantiated at string type, as
used for collection names: feed the string into a fresh `DefaultHasher` and
finish. -/
def calculate_hash_str (s : String) : Nat :=
  sipHash13 (strHashBytes s)

/-- Byte stream contributed by hashing a `usize` (64-bit little-endian), used
as the length prefix when hashing `Vec<u32>` and `BTreeMap`. -/
def usizeBytes (n : Nat) : List Nat := leBytes 8 n

/-- Byte stream contributed by hashing a `u32`. -/
def u32Bytes (n : Nat) : List Nat := leBytes 4 n

/-- Byte stream contributed by hashing an `i64`: eight little-endian bytes of
its two-s complement representation. -/
def i64Bytes (v : Int) : List Nat := leBytes 8 (v.emod (two64 : Int)).toNat

/-- Byte stream contributed by hashing a `Vec<u32>`: the length as a `usize`
prefix, then the elements. -/
def vecU32HashBytes (l : List Nat) : List Nat :=
  usizeBytes l.length ++ (l.map u32Bytes).flatten

/-- Byte stream contributed by hashing a `BTreeMap<String, String>` whose
entries are already in key order: the length prefix, then each key and value
as strings. -/
def btreeHashBytes (entries : List (String × String)) : List Nat :=
  usizeBytes entries.length ++
    (entries.map (fun kv => strHashBytes kv.1 ++ strHashBytes kv.2)).flatten

/-- Ordered insertion used by `sortMetadata`. -/
def insertByKey (x : String × String) : List (String × String) → List (String × String)
  | [] => [x]
  | y :: ys => if x.1 ≤ y.1 then x :: y :: ys else y :: insertByKey x ys

/-- The collection of a `HashMap<String,String>` into a `BTreeMap` performed
by `Vector::calculate_hash`: entries sorted by key (insertion sort, kept
structurally recursive so that concrete hashes reduce; map keys are
distinct, so any sort produces the `BTreeMap` iteration order). -/
def sortMetadata : List (String × String) → List (String × String)
  | [] => []
  | x :: xs => insertByKey x (sortMetadata xs)

/-- Bounded descent used by `isqrt`: the largest `k ≤ fuel` with `k * k ≤ n`. -/
def isqrtFuel : Nat → Nat → Nat
  | 0, _ => 0
  | f + 1, n => if (f + 1) * (f + 1) ≤ n then f + 1 else isqrtFuel f n

/-- Integer square root (floor), structurally recursive so that concrete
instances reduce. -/
def isqrt (n : Nat) : Nat := isqrtFuel n n

/-- Modelled from the spec: the `f32` square root used by the cosine
similarity computations.  The rational abstraction is exact whenever the
numerator and denominator are perfect squares, which holds for every concrete
input appearing in this development; other inputs floor each part, standing
in for the inexact `f32` result. -/
def ratSqrt (q : ℚ) : ℚ :=
  if q ≤ 0 then 0 else (isqrt q.num.toNat : ℚ) / (isqrt q.den : ℚ)

/-- IEEE-754 binary32 bit pattern of a rational, as `f32::to_bits` would
return it.  Exact for rationals that are representable `f32` values (the only
ones the abstraction can produce); non-representable inputs collapse to an
arbitrary pattern, and the development never evaluates the function there. -/
def f32bits (q : ℚ) : Nat :=
  if q = 0 then 0
  else
    let sgn : Nat := if q < 0 then 2 ^ 31 else 0
    let a : ℚ := |q|
    let e : Int := Int.log 2 a
    if e < -126 then
      let m : ℚ := a * 2 ^ (149 : Nat)
      if m.den = 1 ∧ m.num.toNat < 2 ^ 23 then sgn + m.num.toNat else 0
    else if e ≤ 127 then
      let m : ℚ := a * (2 : ℚ) ^ (23 - e)
      if m.den = 1 then sgn + (e + 127).toNat * 2 ^ 23 + (m.num.toNat - 2 ^ 23)
      else 0
    else 0

/-- Model of `objects.rs::Vector::calculate_hash`: hash the triple of the
`f32` bit patterns of the data, the timestamp, and the metadata collected
into a `BTreeMap` (key-sorted), with the standard-library `Hash` encoding of
each component. -/
def vector_calculate_hash (data : List ℚ) (timestamp : Int)
    (metadata : List (String × String)) : Nat :=
  sipHash13 (vecU32HashBytes (data.map f32bits) ++ i64Bytes timestamp ++
    btreeHashBytes (sortMetadata metadata))

/-- Outcome of a fallible operation: `failure` models a Rust `Result::Err`,
`panicked` models a panic (an abort, not a value the caller can match on). -/
inductive RunError where
  | failure (msg : String)
  | panicked (msg : String)
deriving DecidableEq

/-- Model of `lsh.rs::LSHMetric`. -/
inductive LSHMetric where
  | Euclidean
  | Cosine
  | Manhattan
deriving DecidableEq

/-- Model of `lsh.rs::LSH`: the frozen state of the hasher. -/
structure LSH where
  num_hashes : Nat
  dimension : Nat
  projections : List (List ℚ)
  offsets : List ℚ
  bucket_width : ℚ
  metric : LSHMetric
deriving DecidableEq

/-- Model of `LSH::euclidean_distance`: the dot product accumulated over
indices `0..dimension` (out-of-range indices, which would panic in Rust, read
as zero; the well-formedness hypotheses of the theorems exclude them). -/
def LSH.euclidean_distance (l : LSH) (vector projection : List ℚ) : ℚ :=
  (List.range l.dimension).foldl
    (fun dot_product i => dot_product + vector.getD i 0 * projection.getD i 0) 0

/-- Model of `LSH::cosine_distance`: one pass accumulating the dot product
and both squared norms, then the guarded normalized quotient. -/
def LSH.cosine_distance (l : LSH) (vector projection : List ℚ) : ℚ :=
  let acc := (List.range l.dimension).foldl
    (fun acc i =>
      (acc.1 + vector.getD i 0 * projection.getD i 0,
       acc.2.1 + vector.getD i 0 * vector.getD i 0,
       acc.2.2 + projection.getD i 0 * projection.getD i 0))
    (0, 0, 0)
  if acc.2.1 = 0 ∨ acc.2.2 = 0 then 0
  else acc.1 / (ratSqrt acc.2.1 * ratSqrt acc.2.2)

/-- Model of `LSH::manhattan_distance`. -/
def LSH.manhattan_distance (l : LSH) (vector projection : List ℚ) : ℚ :=
  (List.range l.dimension).foldl
    (fun distance i => distance + |vector.getD i 0 - projection.getD i 0|) 0

/-- Model of `LSH::compute_distance`: metric dispatch. -/
def LSH.compute_distance (l : LSH) (vector projection : List ℚ) : ℚ :=
  match l.metric with
  | LSHMetric.Euclidean => l.euclidean_distance vector projection
  | LSHMetric.Cosine => l.cosine_distance vector projection
  | LSHMetric.Manhattan => l.manhattan_distance vector projection

/-- The loop body of `LSH::hash` once the dimension guard has passed: for
each projection, floor the offset-shifted scaled distance to a signed bucket
index, reinterpret it as a `u64` (two-s complement), and fold it into the
accumulator with wrapping arithmetic, the multiplier advancing by a wrapping
factor of 31. -/
def LSH.hash_value (l : LSH) (vector : List ℚ) : Nat :=
  ((List.range l.num_hashes).foldl
    (fun hm i =>
      let distance := l.compute_distance vector (l.projections.getD i [])
      let hash_bucket : Int := ⌊(distance + l.offsets.getD i 0) / l.bucket_width⌋
      (add64 hm.1 (mul64 (hash_bucket.emod (two64 : Int)).toNat hm.2),
       mul64 hm.2 31))
    (0, 1)).1

/-- Model of `LSH::hash`: `none` models the panic raised when the vector
length does not match the configured dimension; otherwise the fold above. -/
def LSH.hash (l : LSH) (vector : List ℚ) : Option Nat :=
  if vector.length = l.dimension then some (l.hash_value vector) else none

/-- Modelled from the spec: `LSH::new` draws `num_hashes` projection vectors
with components in the interval from -1 to 1 and `num_hashes` offsets in
`[0, bucket_width)` from a `StdRng` seeded deterministically.  The ChaCha
byte stream of the external `rand` crate and its `f32` conversion lie outside
both the repository and the rational abstraction, so a simple frozen
deterministic stream derived from the seed stands in; every theorem below is
independent of the concrete drawn values, which the spec only requires to be
a frozen deterministic function of the seed. -/
def pseudoUniform (seed i : Nat) : ℚ :=
  (((seed + 2654435761 * i) % 4096 : Nat) : ℚ) / 4096

/-- Model of `LSH::new` over the stand-in stream: `seed = none` (entropy
seeding) is collapsed to seed zero, a branch no repository call site uses. -/
def lsh_new (dimension num_hashes : Nat) (bucket_width : ℚ) (metric : LSHMetric)
    (seed : Option Nat) : LSH :=
  let s := seed.getD 0
  { num_hashes := num_hashes
    dimension := dimension
    projections := (List.range num_hashes).map
      (fun k => (List.range dimension).map
        (fun j => 2 * pseudoUniform s (k * dimension + j) - 1))
    offsets := (List.range num_hashes).map
      (fun k => bucket_width * pseudoUniform s (num_hashes * dimension + k))
    bucket_width := bucket_width
    metric := metric }

/-- Apply `f` to the first element satisfying `p`, leaving the rest alone:
the effect of a Rust `iter_mut().find(p)` followed by a mutation of the found
element. -/
def modifyFirst (p : α → Bool) (f : α → α) : List α → List α
  | [] => []
  | x :: xs => if p x then f x :: xs else x :: modifyFirst p f xs

/-- Model of `objects.rs::Vector`. -/
structure Vector where
  data : List ℚ
  timestamp : Int
  metadata : List (String × String)
  hash_id : Nat
deriving DecidableEq

/-- Model of `Vector::new`: absent fields default to empty data, timestamp 0
and empty metadata; the id is the content hash computed at construction. -/
def Vector.new (data : Option (List ℚ)) (timestamp : Option Int)
    (metadata : Option (List (String × String))) : Vector :=
  let data_val := data.getD []
  let timestamp_val := timestamp.getD 0
  let metadata_val := metadata.getD []
  { data := data_val
    timestamp := timestamp_val
    metadata := metadata_val
    hash_id := vector_calculate_hash data_val timestamp_val metadata_val }

/-- Model of `Object::set_hash_id` for `Vector`. -/
def Vector.set_hash_id (v : Vector) (id : Nat) : Vector := { v with hash_id := id }

/-- Model of `controllers.rs::VectorController`. -/
structure VectorController where
  vectors : Option (List Vector)
deriving DecidableEq

/-- Model of `VectorController::new`. -/
def VectorController.new : VectorController := ⟨none⟩

/-- Model of `VectorController::add_vector`.  The wall-clock reading used for
the timestamp of a freshly built vector is the explicit `now` argument.  The
Rust function returns `Result` but never errs, so the model returns the new
state and the id directly. -/
def VectorController.add_vector (vc : VectorController)
    (embedding : Option (List ℚ)) (metadata : Option (List (String × String)))
    (vector_id : Option Nat) (vector : Option Vector) (now : Int) :
    VectorController × Nat :=
  let final_vector :=
    match vector with
    | some v => v
    | none =>
      let new_vector := Vector.new embedding (some now) metadata
      match vector_id with
      | some id => new_vector.set_hash_id id
      | none => new_vector
  (⟨some (vc.vectors.getD [] ++ [final_vector])⟩, final_vector.hash_id)

/-- Model of `VectorController::remove_vector`. -/
def VectorController.remove_vector (vc : VectorController) (id : Nat) :
    VectorController × Except String Unit :=
  match vc.vectors with
  | none => (vc, .error "vector list is empty")
  | some vectors =>
    match vectors.findIdx? (fun v => v.hash_id == id) with
    | none => (vc, .error "vector not found")
    | some pos => (⟨some (vectors.eraseIdx pos)⟩, .ok ())

/-- Model of `VectorController::remove_and_get_vector`. -/
def VectorController.remove_and_get_vector (vc : VectorController) (id : Nat) :
    VectorController × Except String Vector :=
  match vc.vectors with
  | none => (vc, .error "vector list is empty")
  | some vectors =>
    match vectors.findIdx? (fun v => v.hash_id == id) with
    | none => (vc, .error "vector not found")
    | some pos =>
      match vectors.get? pos with
      | some v => (⟨some (vectors.eraseIdx pos)⟩, .ok v)
      | none => (vc, .error "vector not found")

/-- Model of `VectorController::update_vector`: mutate the first vector with
the given id in place, replacing whichever of data and metadata were
supplied; the stored `hash_id` and `timestamp` are not touched. -/
def VectorController.update_vector (vc : VectorController) (id : Nat)
    (new_embedding : Option (List ℚ))
    (new_metadata : Option (List (String × String))) :
    VectorController × Except String Unit :=
  match vc.vectors with
  | none => (vc, .error "vector not found")
  | some vectors =>
    if vectors.any (fun v => v.hash_id == id) then
      (⟨some (modifyFirst (fun v => v.hash_id == id)
        (fun v => { v with data := new_embedding.getD v.data,
                           metadata := new_metadata.getD v.metadata }) vectors)⟩,
       .ok ())
    else (vc, .error "vector not found")

/-- Model of `VectorController::get_vector_by_id`. -/
def VectorController.get_vector_by_id (vc : VectorController) (id : Nat) :
    Option Vector :=
  (vc.vectors.getD []).find? (fun v => v.hash_id == id)

/-- Model of `VectorController::filter_by_metadata`: a vector matches iff for
every filter pair its metadata has that key with exactly that value. -/
def VectorController.filter_by_metadata (vc : VectorController)
    (filters : List (String × String)) : List Nat :=
  ((vc.vectors.getD []).filter
    (fun v => filters.all (fun kv => v.metadata.lookup kv.1 == some kv.2))).map
    Vector.hash_id

/-- Model of `core/embeddings.rs::cosine_similarity`: guarded normalized dot
product.  The source asserts equal lengths; every call site guarantees it. -/
def cosine_similarity (a b : List ℚ) : ℚ :=
  let dot_product := ((a.zip b).map (fun xy => xy.1 * xy.2)).sum
  let norm_a := ratSqrt ((a.map (fun x => x * x)).sum)
  let norm_b := ratSqrt ((b.map (fun x => x * x)).sum)
  if norm_a = 0 ∨ norm_b = 0 then 0 else dot_product / (norm_a * norm_b)

/-- Modelled from the spec: the three-argument `find_most_similar(query,
vectors, k)` that `VectorController::find_most_similar` calls is missing from
the sources (the embeddings file only defines an incompatible two-argument
variant over text queries).  Per spec section 4.2 it scores every vector of
the bucket by cosine similarity against the query and returns the top-k
`(index_in_bucket, score)` pairs by descending score with the stable
tie-break that a lower index wins; like the two-argument variant it rejects
an empty vector list. -/
def find_most_similar (query : List ℚ) (vectors : List Vector) (k : Nat) :
    Except String (List (Nat × ℚ)) :=
  if vectors.isEmpty then .error "Vector list is empty"
  else
    .ok (((vectors.enum.map
      (fun iv => (iv.1, cosine_similarity query iv.2.data))).mergeSort
        (fun a b => decide (b.2 ≤ a.2))).take k)

/-- Model of `VectorController::find_most_similar`. -/
def VectorController.find_most_similar (vc : VectorController)
    (query : List ℚ) (k : Nat) : Except String (List (Nat × ℚ)) :=
  match vc.vectors with
  | some vectors => VecDB.find_most_similar query vectors k
  | none => .error "vector list is empty"

/-- Model of `objects.rs::Bucket`. -/
structure Bucket where
  id : Nat
  vectors_controller : VectorController
  created_at : Int
  updated_at : Int
deriving DecidableEq

/-- Model of `Bucket::new`: fresh empty bucket, both timestamps `now`. -/
def Bucket.new (id : Nat) (now : Int) : Bucket :=
  { id := id, vectors_controller := VectorController.new,
    created_at := now, updated_at := now }

/-- Model of `Object::hash_id` for `Bucket`. -/
def Bucket.hash_id (b : Bucket) : Nat := b.id

/-- Model of `Bucket::size`. -/
def Bucket.size (b : Bucket) : Nat :=
  (b.vectors_controller.vectors.getD []).length

/-- Model of `Bucket::get_vector`. -/
def Bucket.get_vector (b : Bucket) (vector_id : Nat) : Option Vector :=
  b.vectors_controller.get_vector_by_id vector_id

/-- Model of `Bucket::contains_vector`. -/
def Bucket.contains_vector (b : Bucket) (vector_id : Nat) : Bool :=
  (b.get_vector vector_id).isSome

/-- The re-insertion step of `BucketController::update_vector`: push an
already-built vector object (keeping its stored id) into a bucket through
the vector controller. -/
def Bucket.push_vector (b : Bucket) (v : Vector) (now : Int) : Bucket :=
  { b with vectors_controller :=
      (b.vectors_controller.add_vector none none none (some v) now).1 }

/-- Model of `Bucket::add_vector`: append through the vector controller and
refresh `updated_at`. -/
def Bucket.add_vector (b : Bucket) (embedding : List ℚ)
    (metadata : List (String × String)) (now : Int) : Bucket × Nat :=
  let vcres := b.vectors_controller.add_vector (some embedding) (some metadata)
    none none now
  ({ b with vectors_controller := vcres.1, updated_at := now }, vcres.2)

/-- Model of `Bucket::remove_vector`. -/
def Bucket.remove_vector (b : Bucket) (vector_id : Nat) (now : Int) :
    Bucket × Except String Unit :=
  let vcres := b.vectors_controller.remove_vector vector_id
  match vcres.2 with
  | .ok _ => ({ b with vectors_controller := vcres.1, updated_at := now }, .ok ())
  | .error e => (b, .error e)

/-- Model of `Bucket::remove_and_get_vector`. -/
def Bucket.remove_and_get_vector (b : Bucket) (vector_id : Nat) (now : Int) :
    Bucket × Except String Vector :=
  let vcres := b.vectors_controller.remove_and_get_vector vector_id
  match vcres.2 with
  | .ok v => ({ b with vectors_controller := vcres.1, updated_at := now }, .ok v)
  | .error e => (b, .error e)

/-- Model of `Bucket::update_vector`: in-place update through the vector
controller, refreshing `updated_at` on success. -/
def Bucket.update_vector (b : Bucket) (vector_id : Nat)
    (new_embedding : Option (List ℚ))
    (new_metadata : Option (List (String × String))) (now : Int) :
    Bucket × Except String Unit :=
  let vcres := b.vectors_controller.update_vector vector_id new_embedding
    new_metadata
  match vcres.2 with
  | .ok _ => ({ b with vectors_controller := vcres.1, updated_at := now }, .ok ())
  | .error e => (b, .error e)

/-- Model of `Bucket::find_similar`. -/
def Bucket.find_similar (b : Bucket) (query : List ℚ) (k : Nat) :
    Except String (List (Nat × ℚ)) :=
  b.vectors_controller.find_most_similar query k

/-- Model of `Bucket::filter_by_metadata`. -/
def Bucket.filter_by_metadata (b : Bucket)
    (filters : List (String × String)) : List Nat :=
  b.vectors_controller.filter_by_metadata filters

/-- Model of `controllers.rs::BucketController`. -/
structure BucketController where
  buckets : Option (List Bucket)
  lsh : Option LSH
  dimension : Option Nat
deriving DecidableEq

/-- Model of `BucketController::new`. -/
def BucketController.new (dimension num_hashes : Nat) (bucket_width : ℚ)
    (metric : LSHMetric) (seed : Option Nat) : BucketController :=
  { buckets := none
    lsh := some (lsh_new dimension num_hashes bucket_width metric seed)
    dimension := some dimension }

/-- Model of `BucketController::get_bucket`. -/
def BucketController.get_bucket (bc : BucketController) (id : Nat) :
    Option Bucket :=
  (bc.buckets.getD []).find? (fun b => b.id == id)

/-- Model of `BucketController::get_or_create_bucket` up to its state effect:
append a fresh bucket when no bucket with this id exists (a `None` bucket
list behaves as the empty list).  The reference the Rust function returns is
rendered by the callers mutating the first bucket with this id. -/
def BucketController.get_or_create_bucket (bc : BucketController)
    (bucket_id : Nat) (now : Int) : BucketController :=
  let bucket_exists :=
    match bc.buckets with
    | some buckets => buckets.any (fun b => b.id == bucket_id)
    | none => false
  if bucket_exists then bc
  else { bc with buckets := some (bc.buckets.getD [] ++ [Bucket.new bucket_id now]) }

/-- Model of `BucketController::add_vector`: dimension guard, hash, then
insertion into the (possibly fresh) bucket for that hash.  The returned id is
the content hash the constructed vector carries. -/
def BucketController.add_vector (bc : BucketController) (embedding : List ℚ)
    (metadata : List (String × String)) (now : Int) :
    BucketController × Except RunError Nat :=
  match bc.lsh with
  | none => (bc, .error (.failure "LSH not initialized"))
  | some lsh =>
    match bc.dimension with
    | none => (bc, .error (.failure "dimension not set"))
    | some dimension =>
      if embedding.length ≠ dimension then
        (bc, .error (.failure "vector dimension does not match the expected dimension"))
      else
        match lsh.hash embedding with
        | none => (bc, .error (.panicked "vector dimension does not match the expected dimension"))
        | some bucket_hash =>
          let bc2 := bc.get_or_create_bucket bucket_hash now
          ({ bc2 with buckets := some (modifyFirst (fun b => b.id == bucket_hash)
              (fun b => (b.add_vector embedding metadata now).1)
              (bc2.buckets.getD [])) },
           .ok (Vector.new (some embedding) (some now) (some metadata)).hash_id)

/-- Model of `BucketController::total_vectors`. -/
def BucketController.total_vectors (bc : BucketController) : Nat :=
  ((bc.buckets.getD []).map Bucket.size).sum

/-- Model of `BucketController::find_similar`: dimension guard, then the
top-k of the single bucket whose id is the hash of the query, tagged with
that bucket id; the empty list when no such bucket exists. -/
def BucketController.find_similar (bc : BucketController) (query : List ℚ)
    (k : Nat) : Except RunError (List (Nat × Nat × ℚ)) :=
  match bc.lsh with
  | none => .error (.failure "LSH not initialized")
  | some lsh =>
    match bc.dimension with
    | none => .error (.failure "dimension not set")
    | some dimension =>
      if query.length ≠ dimension then
        .error (.failure "vector dimension does not match the expected dimension")
      else
        match lsh.hash query with
        | none => .error (.panicked "vector dimension does not match the expected dimension")
        | some query_hash =>
          match (bc.buckets.getD []).find? (fun b => b.hash_id == query_hash) with
          | some bucket =>
            match bucket.find_similar query k with
            | .ok results =>
              .ok (results.map (fun p => (bucket.hash_id, p.1, p.2)))
            | .error e => .error (.failure e)
          | none => .ok []

/-- Relation the multi-bucket fallback and the coordinator merge sort with:
keep `a` before `b` when b-s score is at most a-s, the rendering of
`sort_by(|a, b| b.2.partial_cmp(&a.2).unwrap_or(Equal))` over a total score
order (a stable descending sort by score). -/
def score_desc (a b : Nat × Nat × ℚ) : Bool := decide (b.2.2 ≤ a.2.2)

/-- The accumulation loop of `find_similar_multi_bucket`: per-bucket top-k
lists tagged with their bucket id, concatenated in bucket order.  An error
from any bucket (only possible for an empty bucket) aborts the loop as the
`?` operator does. -/
def collect_bucket_results (query : List ℚ) (k : Nat) :
    List Bucket → Except String (List (Nat × Nat × ℚ))
  | [] => .ok []
  | b :: rest =>
    match b.find_similar query k with
    | .error e => .error e
    | .ok results =>
      match collect_bucket_results query k rest with
      | .error e => .error e
      | .ok acc => .ok ((results.map (fun p => (b.hash_id, p.1, p.2))) ++ acc)

/-- Model of `BucketController::find_similar_multi_bucket`: score every
bucket, flatten, sort descending by score (stable), truncate to k. -/
def BucketController.find_similar_multi_bucket (bc : BucketController)
    (query : List ℚ) (k : Nat) : Except RunError (List (Nat × Nat × ℚ)) :=
  match bc.dimension with
  | none => .error (.failure "dimension not set")
  | some dimension =>
    if query.length ≠ dimension then
      .error (.failure "vector dimension does not match the expected dimension")
    else
      match collect_bucket_results query k (bc.buckets.getD []) with
      | .error e => .error (.failure e)
      | .ok all_results => .ok ((all_results.mergeSort score_desc).take k)

/-- Model of `BucketController::remove_vector`: locate the first bucket
containing the id, remove the vector there, and drop the bucket from the
index in the same operation when it became empty. -/
def BucketController.remove_vector (bc : BucketController) (vector_id : Nat)
    (now : Int) : BucketController × Except String Unit :=
  match bc.buckets with
  | none => (bc, .error "vector not found in any bucket")
  | some buckets =>
    match buckets.findIdx? (fun b => b.contains_vector vector_id) with
    | none => (bc, .error "vector not found in any bucket")
    | some index =>
      let b := buckets.getD index (Bucket.new 0 0)
      let bres := b.remove_vector vector_id now
      match bres.2 with
      | .ok _ =>
        if bres.1.size == 0 then
          ({ bc with buckets := some (buckets.eraseIdx index) }, .ok ())
        else ({ bc with buckets := some (buckets.set index bres.1) }, .ok ())
      | .error e =>
        ({ bc with buckets := some (buckets.set index bres.1) }, .error e)

/-- Model of `BucketController::get_vector`: first hit over the buckets. -/
def BucketController.get_vector (bc : BucketController) (vector_id : Nat) :
    Option Vector :=
  (bc.buckets.getD []).findSome? (fun b => b.get_vector vector_id)

/-- Model of `BucketController::filter_by_metadata`: union (concatenation)
of the per-bucket filter results. -/
def BucketController.filter_by_metadata (bc : BucketController)
    (filters : List (String × String)) : List Nat :=
  ((bc.buckets.getD []).map (fun b => b.filter_by_metadata filters)).flatten

/-- Model of `BucketController::remove_empty_bucket`: drop the first bucket
with this id, but only when it holds no vectors. -/
def BucketController.remove_empty_bucket (bc : BucketController)
    (bucket_id : Nat) : BucketController :=
  match bc.buckets with
  | none => bc
  | some buckets =>
    match buckets.findIdx? (fun b => b.id == bucket_id) with
    | none => bc
    | some pos =>
      if (buckets.getD pos (Bucket.new 0 0)).size == 0 then
        { bc with buckets := some (buckets.eraseIdx pos) }
      else bc

/-- Model of `BucketController::update_vector`: find the first bucket holding
the id; check the new dimension; hash the prospective data; update in place
when the hash stays in the same bucket, otherwise extract the vector, apply
the field updates, insert it into the bucket of the new hash (created on
demand), and drop the source bucket if it is now empty. -/
def BucketController.update_vector (bc : BucketController) (vector_id : Nat)
    (new_embedding : Option (List ℚ))
    (new_metadata : Option (List (String × String))) (now : Int) :
    BucketController × Except RunError Unit :=
  match bc.lsh with
  | none => (bc, .error (.failure "LSH not initialized"))
  | some lsh =>
    match bc.dimension with
    | none => (bc, .error (.failure "dimension not set"))
    | some dimension =>
      match bc.buckets with
      | none => (bc, .ok ())
      | some buckets =>
        match buckets.findIdx? (fun b => b.contains_vector vector_id) with
        | none => (bc, .ok ())
        | some i =>
          let b := buckets.getD i (Bucket.new 0 0)
          match b.get_vector vector_id with
          | none => (bc, .ok ())
          | some v =>
            if (new_embedding.map List.length).getD dimension ≠ dimension then
              (bc, .error (.failure "vector dimension does not match the expected dimension"))
            else
              match lsh.hash (new_embedding.getD v.data) with
              | none => (bc, .error (.panicked "vector dimension does not match the expected dimension"))
              | some new_bucket_id =>
                if b.id == new_bucket_id then
                  let bres := b.update_vector vector_id new_embedding new_metadata now
                  ({ bc with buckets := some (buckets.set i bres.1) },
                   match bres.2 with
                   | .ok _ => .ok ()
                   | .error e => .error (.failure e))
                else
                  match b.remove_and_get_vector vector_id now with
                  | (b2, .error e) =>
                    ({ bc with buckets := some (buckets.set i b2) },
                     .error (.failure e))
                  | (b2, .ok moved) =>
                    let moved2 := { moved with
                      data := new_embedding.getD moved.data,
                      metadata := new_metadata.getD moved.metadata }
                    let bc2 := { bc with buckets := some (buckets.set i b2) }
                    let bc3 := bc2.get_or_create_bucket new_bucket_id now
                    let bc4 := { bc3 with buckets := some (modifyFirst
                      (fun bb => bb.id == new_bucket_id)
                      (fun bb => bb.push_vector moved2 now)
                      (bc3.buckets.getD [])) }
                    (bc4.remove_empty_bucket b.id, .ok ())

/-- Model of `objects.rs::Collection`. -/
structure Collection where
  name : String
  buckets_controller : BucketController
  lsh_metric : LSHMetric
  vector_dimension : Nat
  id : Nat
deriving DecidableEq

/-- Model of `Collection::new`: the id is the 64-bit hash of the name (zero
for the anonymous placeholder), and the bucket controller is built with the
defaults `num_hashes = 3`, `bucket_width = 10.0`, seed 42. -/
def Collection.new (name : Option String) (lsh_metric : LSHMetric)
    (vector_dimension : Nat) : Collection :=
  let p := match name with
    | some n => (n, calculate_hash_str n)
    | none => ("", 0)
  { name := p.1
    buckets_controller := BucketController.new vector_dimension 3 10 lsh_metric (some 42)
    lsh_metric := lsh_metric
    vector_dimension := vector_dimension
    id := p.2 }

/-- Model of `Collection::filter_by_metadata`. -/
def Collection.filter_by_metadata (c : Collection)
    (filters : List (String × String)) : List Nat :=
  c.buckets_controller.filter_by_metadata filters

/-- Model of `controllers.rs::CollectionController`.  The storage controller
field only touches the file system and is outside the model. -/
structure CollectionController where
  collections : Option (List Collection)
deriving DecidableEq

/-- Model of `CollectionController::new`. -/
def CollectionController.new : CollectionController := ⟨none⟩

/-- Model of `CollectionController::add_collection`: initialize the list if
needed and push a fresh collection; the function never checks for an
existing collection with the same name and always returns `Ok`. -/
def CollectionController.add_collection (cc : CollectionController)
    (name : String) (lsh_metric : LSHMetric) (vector_dimension : Nat) :
    CollectionController × Except String Unit :=
  (⟨some (cc.collections.getD [] ++
      [Collection.new (some name) lsh_metric vector_dimension])⟩,
   .ok ())

/-- Model of `CollectionController::delete_collection`. -/
def CollectionController.delete_collection (cc : CollectionController)
    (name : String) : CollectionController × Except String Unit :=
  match cc.collections with
  | none => (cc, .error "collections not initialized")
  | some collections =>
    match collections.findIdx? (fun c => c.name == name) with
    | none => (cc, .error "collection with this name not found")
    | some pos => (⟨some (collections.eraseIdx pos)⟩, .ok ())

/-- Model of `CollectionController::get_collection`. -/
def CollectionController.get_collection (cc : CollectionController)
    (name : String) : Option Collection :=
  match cc.collections with
  | none => none
  | some collections => collections.find? (fun c => c.name == name)

/-- Model of `CollectionController::add_vector`: find the collection, check
the dimension at the collection boundary, then delegate to the bucket
controller, collapsing its failure message. -/
def CollectionController.add_vector (cc : CollectionController)
    (collection_name : String) (embedding : List ℚ)
    (metadata : List (String × String)) (now : Int) :
    CollectionController × Except RunError Nat :=
  match cc.collections with
  | none => (cc, .error (.failure "collections not initialized"))
  | some collections =>
    match collections.findIdx? (fun c => c.name == collection_name) with
    | none => (cc, .error (.failure "collection with the given name not found"))
    | some i =>
      let col := collections.getD i (Collection.new none LSHMetric.Euclidean 0)
      if embedding.length ≠ col.vector_dimension then
        (cc, .error (.failure "vector dimension does not match the collection dimension"))
      else
        let bres := col.buckets_controller.add_vector embedding metadata now
        (⟨some (collections.set i { col with buckets_controller := bres.1 })⟩,
         match bres.2 with
         | .ok id => .ok id
         | .error (.panicked m) => .error (.panicked m)
         | .error (.failure _) => .error (.failure "error adding vector to LSH bucket"))

/-- Model of `CollectionController::update_vector`: dimension check at the
collection boundary, then the bucket-controller update. -/
def CollectionController.update_vector (cc : CollectionController)
    (collection_name : String) (vector_id : Nat)
    (new_embedding : Option (List ℚ))
    (new_metadata : Option (List (String × String))) (now : Int) :
    CollectionController × Except RunError Unit :=
  match cc.collections with
  | none => (cc, .error (.failure "collection not found"))
  | some collections =>
    match collections.findIdx? (fun c => c.name == collection_name) with
    | none => (cc, .error (.failure "collection not found"))
    | some i =>
      let col := collections.getD i (Collection.new none LSHMetric.Euclidean 0)
      if (new_embedding.map List.length).getD col.vector_dimension ≠ col.vector_dimension then
        (cc, .error (.failure "vector dimension does not match the collection dimension"))
      else
        let bres := col.buckets_controller.update_vector vector_id new_embedding
          new_metadata now
        (⟨some (collections.set i { col with buckets_controller := bres.1 })⟩,
         bres.2)

/-- Model of `CollectionController::delete_vector`. -/
def CollectionController.delete_vector (cc : CollectionController)
    (collection_name : String) (vector_id : Nat) (now : Int) :
    CollectionController × Except RunError Unit :=
  match cc.collections with
  | none => (cc, .error (.failure "collection not found"))
  | some collections =>
    match collections.findIdx? (fun c => c.name == collection_name) with
    | none => (cc, .error (.failure "collection not found"))
    | some i =>
      let col := collections.getD i (Collection.new none LSHMetric.Euclidean 0)
      let bres := col.buckets_controller.remove_vector vector_id now
      (⟨some (collections.set i { col with buckets_controller := bres.1 })⟩,
       match bres.2 with
       | .ok _ => .ok ()
       | .error e => .error (.failure e))

/-- Model of `CollectionController::find_similar`.  Note the order of
operations of the source: the query is hashed BEFORE any dimension check
(`LSH::hash` panics on a mismatched length); only then is the primary bucket
looked up and, when it exists with at least k vectors, the single-bucket
search is taken, the multi-bucket fallback otherwise. -/
def CollectionController.find_similar (cc : CollectionController)
    (collection_name : String) (query : List ℚ) (k : Nat) :
    Except RunError (List (Nat × Nat × ℚ)) :=
  match cc.get_collection collection_name with
  | none => .error (.failure "collection not found")
  | some current =>
    match current.buckets_controller.lsh with
    | none => .error (.failure "LSH not initialized")
    | some lsh =>
      match lsh.hash query with
      | none => .error (.panicked "vector dimension does not match the expected dimension")
      | some query_hash =>
        let fast_path : Bool :=
          match current.buckets_controller.buckets with
          | some buckets =>
            match buckets.find? (fun b => b.hash_id == query_hash) with
            | some bucket => decide (k ≤ bucket.size)
            | none => false
          | none => false
        if fast_path then current.buckets_controller.find_similar query k
        else current.buckets_controller.find_similar_multi_bucket query k

/-- Model of `CollectionController::filter_by_metadata`. -/
def CollectionController.filter_by_metadata (cc : CollectionController)
    (collection_name : String) (filters : List (String × String)) :
    Except RunError (List Nat) :=
  match cc.get_collection collection_name with
  | none => .error (.failure "collection not found")
  | some current => .ok (current.filter_by_metadata filters)

/-- Model of `shard_client.rs::ShardResponse`.  The `data` payload is a JSON
value the fan-out claims never inspect, abstracted to an opaque string. -/
structure ShardResponse where
  success : Bool
  data : Option String
  error : Option String
  shard_id : String
deriving DecidableEq

/-- Model of `shard_client.rs::MultiShardResult`. -/
structure MultiShardResult where
  results : List ShardResponse
  successful_operations : Nat
  failed_operations : Nat
deriving DecidableEq

/-- The fan-out loop that `create_collection_on_all_shards`,
`delete_collection_on_all_shards` and `stop_all_shards` each repeat verbatim.
Each element of `outcomes` is one configured client, in the iteration order
of the client map, paired with the transport-level result of its call: a
decoded response, or a transport error (connection failure, timeout,
non-success HTTP status, undecodable body).  Note that a decoded response
increments `successful_operations` even when its `success` field is false;
only transport errors count as failed operations. -/
def fan_out_aggregate (outcomes : List (String × Except String ShardResponse)) :
    MultiShardResult :=
  outcomes.foldl
    (fun acc so =>
      match so.2 with
      | .ok response =>
        { acc with
          results := acc.results ++ [{ response with shard_id := so.1 }]
          successful_operations := acc.successful_operations + 1 }
      | .error e =>
        { acc with
          results := acc.results ++ [⟨false, none, some e, so.1⟩]
          failed_operations := acc.failed_operations + 1 })
    ⟨[], 0, 0⟩

/-- Model of `MultiShardClient::create_collection_on_all_shards` over the
supplied call outcomes. -/
def create_collection_on_all_shards
    (outcomes : List (String × Except String ShardResponse)) : MultiShardResult :=
  fan_out_aggregate outcomes

/-- Model of `MultiShardClient::delete_collection_on_all_shards` over the
supplied call outcomes. -/
def delete_collection_on_all_shards
    (outcomes : List (String × Except String ShardResponse)) : MultiShardResult :=
  fan_out_aggregate outcomes

/-- Model of `sharding.rs::ShardManager`.  The `shards` field of the source
is a `std::collections::HashMap<String, Shard>`; its keys in the iteration
order of that map are all the routing code ever reads, and that order is
unspecified and varies from process to process (`RandomState`), so the model
carries it explicitly.  It is always a permutation of the configured shard
ids that `ShardManager::new` inserted. -/
structure ShardManager where
  shard_key_order : List String
deriving DecidableEq

/-- Model of `ShardManager::get_shard_for_collection`.  All four
`RoutingStrategy` arms of the source perform this identical computation: hash
the collection name with `DefaultHasher`, reduce modulo the number of shards
(`u64 % 0` panics when no shard is configured), and pick the key at that
position of the map iteration order via `keys().nth(..)`. -/
def ShardManager.get_shard_for_collection (m : ShardManager)
    (collection_name : String) : Except RunError String :=
  let hash := calculate_hash_str collection_name
  let shard_count := m.shard_key_order.length
  if shard_count = 0 then .error (.panicked "remainder by zero")
  else
    match m.shard_key_order.get? (hash % shard_count) with
    | some shard_id => .ok shard_id
    | none => .error (.failure "no available shards")

/-- Model of `ShardCoordinator::create_collection` over the supplied fan-out
outcomes: route the name (only to record the collection on that shard), fan
the creation out to every client, inspect the per-shard results only to log
them, and return `Ok` regardless of those results; the only error paths are
the routing call and the (unreachable for a routed id) map lookup of
`add_collection_to_shard`. -/
def ShardCoordinator.create_collection (m : ShardManager) (name : String)
    (outcomes : List (String × Except String ShardResponse)) :
    Except RunError Unit :=
  match m.get_shard_for_collection name with
  | .error e => .error e
  | .ok shard_id =>
    let _results := create_collection_on_all_shards outcomes
    if m.shard_key_order.contains shard_id then .ok ()
    else .error (.failure "shard not found")

/-- Model of `ShardCoordinator::delete_collection` over the supplied fan-out
outcomes: fan the deletion out, log the per-shard results, scrub the
collection from the in-memory shard view discarding any errors, and return
`Ok` unconditionally. -/
def ShardCoordinator.delete_collection (_m : ShardManager) (_name : String)
    (outcomes : List (String × Except String ShardResponse)) :
    Except RunError Unit :=
  let _results := delete_collection_on_all_shards outcomes
  .ok ()

/-- Model of `MultiShardClient::find_similar_across_shards` over the
per-shard call outcomes.  For each client, in map iteration order, the loop
keeps the parsed `(bucket_id, vector_index, score)` triples when the call
succeeded with `success = true` and a well-formed `results` payload
(`some list`), and silently skips the shard otherwise (`none`); it then
sorts everything by descending score (stable) and truncates to k. -/
def find_similar_across_shards
    (outcomes : List (Option (List (Nat × Nat × ℚ)))) (k : Nat) :
    Except String (List (Nat × Nat × ℚ)) :=
  let all_results := (outcomes.filterMap id).flatten
  .ok ((all_results.mergeSort score_desc).take k)

/-- Model of `ShardCoordinator::find_similar_vectors`: extend an empty list
with the merged remote results (a failure would only be logged, and the
merge function never fails), then sort by descending score and truncate to k
once more. -/
def ShardCoordinator.find_similar_vectors
    (outcomes : List (Option (List (Nat × Nat × ℚ)))) (k : Nat) :
    Except String (List (Nat × Nat × ℚ)) :=
  let all_results :=
    match find_similar_across_shards outcomes k with
    | .ok remote_results => remote_results
    | .error _ => []
  .ok ((all_results.mergeSort score_desc).take k)

/-- Single data-plane mutation on a bucket index: the three operations of the
empty-bucket-eviction claim. -/
inductive DbOp where
  | insert (embedding : List ℚ) (metadata : List (String × String)) (now : Int)
  | delete (vector_id : Nat) (now : Int)
  | update (vector_id : Nat) (new_embedding : Option (List ℚ))
      (new_metadata : Option (List (String × String))) (now : Int)

/-- State reached after one operation (results are discarded; failing
operations leave the state unchanged in the model, matching the source). -/
def DbOp.apply (bc : BucketController) : DbOp → BucketController
  | .insert e m now => (bc.add_vector e m now).1
  | .delete id now => (bc.remove_vector id now).1
  | .update id ne nm now => (bc.update_vector id ne nm now).1

/-- No bucket of the index is empty. -/
def bucket_size_pos (bc : BucketController) : Prop :=
  ∀ b ∈ bc.buckets.getD [], 0 < b.size

/-- Bucket ids of the index are pairwise distinct. -/
def bucket_ids_nodup (bc : BucketController) : Prop :=
  ((bc.buckets.getD []).map Bucket.id).Nodup

/-- The per-bucket scorer of spec section 4.2 as a value: every vector of
the bucket scored by cosine similarity against the query, in bucket order,
stable-sorted by descending score and truncated to k (exactly the `Ok`
payload of `find_most_similar` on a non-empty bucket). -/
def spec_topk (query : List ℚ) (vectors : List Vector) (k : Nat) :
    List (Nat × ℚ) :=
  ((vectors.enum.map
    (fun iv => (iv.1, cosine_similarity query iv.2.data))).mergeSort
      (fun a b => decide (b.2 ≤ a.2))).take k

/-- Modelled from the spec (amended reading): collection-level similarity
search over a bucket list — the primary-bucket fast path is taken exactly
when the bucket whose id equals the query hash exists and holds at least k
vectors, returning its top-k tagged with its id; otherwise the per-bucket
top-k lists are flattened in bucket storage order, stable-sorted by
descending score (ties keep the concatenation order) and truncated to k. -/
def spec_find_similar (bs : List Bucket) (query : List ℚ) (k : Nat)
    (qh : Nat) : List (Nat × Nat × ℚ) :=
  let flat := (bs.map (fun b =>
    (spec_topk query (b.vectors_controller.vectors.getD []) k).map
      (fun p => (b.hash_id, p.1, p.2)))).flatten
  match bs.find? (fun b => b.hash_id == qh) with
  | some bucket =>
    if k ≤ bucket.size then
      (spec_topk query (bucket.vectors_controller.vectors.getD []) k).map
        (fun p => (bucket.hash_id, p.1, p.2))
    else (flat.mergeSort score_desc).take k
  | none => (flat.mergeSort score_desc).take k

/-- Modelled from the spec: the tie-break order the claim asserts for the
multi-bucket fallback — score descending, then bucket id ascending, then
in-bucket index ascending. -/
def claim_tie_sort (a b : Nat × Nat × ℚ) : Bool :=
  decide (b.2.2 < a.2.2) ||
    (decide (a.2.2 = b.2.2) &&
      (decide (a.1 < b.1) || (decide (a.1 = b.1) && decide (a.2.1 ≤ b.2.1))))

/-- Modelled from the spec: the multi-bucket fallback exactly as the claim
words it, identical to `BucketController.find_similar_multi_bucket` except
that the sort uses the claimed tie-break order instead of the stable
score-only comparator of the source. -/
def claim_find_similar (bc : BucketController) (query : List ℚ) (k : Nat) :
    Except RunError (List (Nat × Nat × ℚ)) :=
  match bc.dimension with
  | none => .error (.failure "dimension not set")
  | some dimension =>
    if query.length ≠ dimension then
      .error (.failure "vector dimension does not match the expected dimension")
    else
      match collect_bucket_results query k (bc.buckets.getD []) with
      | .error e => .error (.failure e)
      | .ok all_results => .ok ((all_results.mergeSort claim_tie_sort).take k)

/-! General-purpose lemmas about the list combinators of the model. -/

theorem modifyFirst_map_eq {α β : Type} (p : α → Bool) (f : α → α) (g : α → β)
    (hg : ∀ x, g (f x) = g x) (l : List α) :
    (modifyFirst p f l).map g = l.map g := by
  induction l with
  | nil => rfl
  | cons x xs ih =>
    by_cases hx : p x
    · simp [modifyFirst, hx, hg]
    · simp [modifyFirst, hx, ih]

theorem fan_out_aggregate_results_length
    (outcomes : List (String × Except String ShardResponse)) :
    (fan_out_aggregate outcomes).results.length = outcomes.length := by
  have general : ∀ (l : List (String × Except String ShardResponse))
      (acc : MultiShardResult),
      (l.foldl (fun acc so =>
        match so.2 with
        | .ok response =>
          { acc with
            results := acc.results ++ [{ response with shard_id := so.1 }]
            successful_operations := acc.successful_operations + 1 }
        | .error e =>
          { acc with
            results := acc.results ++ [⟨false, none, some e, so.1⟩]
            failed_operations := acc.failed_operations + 1 }) acc).results.length =
        acc.results.length + l.length := by
    intro l
    induction l with
    | nil => intro acc; simp
    | cons x xs ih =>
      intro acc
      match hx : x.2 with
      | .ok response => simp [hx, ih]; omega
      | .error e => simp [hx, ih]; omega
  simpa using general outcomes ⟨[], 0, 0⟩

theorem score_desc_trans (a b c : Nat × Nat × ℚ) (hab : score_desc a b = true)
    (hbc : score_desc b c = true) : score_desc a c = true := by
  simp only [score_desc, decide_eq_true_eq] at *
  exact le_trans hbc hab

theorem score_desc_total (a b : Nat × Nat × ℚ) :
    (score_desc a b || score_desc b a) = true := by
  simp only [score_desc, Bool.or_eq_true, decide_eq_true_eq]
  exact le_total b.2.2 a.2.2

/-- C3 counterexample: on a registry already holding a collection named `a`,
`add_collection("a", ..)` does NOT fail with AlreadyExists; it returns `Ok`
and appends a second collection of the same name, so the registry now lists
`a` twice. -/
theorem c3_duplicate_create_succeeds :
    ((CollectionController.mk
        (some [Collection.new (some "a") LSHMetric.Euclidean 4])).add_collection
        "a" LSHMetric.Euclidean 4).2 = Except.ok () ∧
    ((((CollectionController.mk
        (some [Collection.new (some "a") LSHMetric.Euclidean 4])).add_collection
        "a" LSHMetric.Euclidean 4).1.collections.getD []).map Collection.name) =
      ["a", "a"] :=
  ⟨rfl, rfl⟩

/-- C3 (corrected): creating a collection never checks whether the name is
already present: for EVERY registry state, `add_collection(N, metric, dim)`
returns `Ok` and appends a fresh collection named `N` to the (initialized if
necessary) list, leaving all existing entries, duplicates included, in
place.  No AlreadyExists error exists on this path. -/
theorem c3_add_collection_always_appends (cc : CollectionController)
    (name : String) (metric : LSHMetric) (dim : Nat) :
    (cc.add_collection name metric dim).2 = Except.ok () ∧
    (cc.add_collection name metric dim).1.collections =
      some (cc.collections.getD [] ++ [Collection.new (some name) metric dim]) :=
  ⟨rfl, rfl⟩

/-- C1 counterexample: with one configured shard reachable and a second
shard failing at transport level, the coordinator-s `create_collection`
still returns `Ok`, although the fan-out recorded exactly one failed
operation; the claim demanded an error naming the failing shard. -/
theorem c1_partial_failure_reports_ok :
    ShardCoordinator.create_collection (ShardManager.mk ["s1"]) "c"
        [("s1", Except.ok ⟨true, none, none, ""⟩), ("s2", Except.error "connection refused")] =
      Except.ok () ∧
    (create_collection_on_all_shards
        [("s1", Except.ok ⟨true, none, none, ""⟩), ("s2", Except.error "connection refused")]).failed_operations = 1 ∧
    ((create_collection_on_all_shards
        [("s1", Except.ok ⟨true, none, none, ""⟩), ("s2", Except.error "connection refused")]).results.map
        ShardResponse.success) = [true, false] := by
  refine ⟨?_, rfl, rfl⟩
  rfl

/-- C1 (amended): every create/delete collection request at the coordinator
is fanned out to all configured shard clients (one recorded per-shard result
each), but the coordinator-s own result does not depend on them: as long as
at least one shard is configured (routing panics otherwise), both
`create_collection` and `delete_collection` return `Ok` whatever the
per-shard outcomes were; shard failures are only logged, with their detail
kept in the per-shard result list. -/
theorem c1_fanout_result_independent (m : ShardManager) (name : String)
    (outcomes : List (String × Except String ShardResponse))
    (h : m.shard_key_order ≠ []) :
    ShardCoordinator.create_collection m name outcomes = Except.ok () ∧
    (create_collection_on_all_shards outcomes).results.length = outcomes.length ∧
    ShardCoordinator.delete_collection m name outcomes = Except.ok () ∧
    (delete_collection_on_all_shards outcomes).results.length = outcomes.length := by
  have hlen : 0 < m.shard_key_order.length := List.length_pos.mpr h
  have hidx : calculate_hash_str name % m.shard_key_order.length <
      m.shard_key_order.length := Nat.mod_lt _ hlen
  refine ⟨?_, fan_out_aggregate_results_length _, rfl,
    fan_out_aggregate_results_length _⟩
  unfold ShardCoordinator.create_collection ShardManager.get_shard_for_collection
  simp only [Nat.pos_iff_ne_zero.mp hlen, if_false]
  rw [List.get?_eq_get hidx]
  simp [List.contains, List.elem_iff, List.get_mem]

/-- C1 witness: the amended statement at a concrete manager and concrete
fan-out outcomes containing a failing shard. -/
theorem c1_fanout_result_independent_witness :
    ShardCoordinator.create_collection (ShardManager.mk ["s1", "s2"]) "docs"
        [("s1", Except.ok ⟨true, none, none, ""⟩), ("s2", Except.error "timeout")] =
      Except.ok () ∧
    (create_collection_on_all_shards
        [("s1", Except.ok ⟨true, none, none, ""⟩), ("s2", Except.error "timeout")]).results.length = 2 ∧
    ShardCoordinator.delete_collection (ShardManager.mk ["s1", "s2"]) "docs"
        [("s1", Except.ok ⟨true, none, none, ""⟩), ("s2", Except.error "timeout")] =
      Except.ok () ∧
    (delete_collection_on_all_shards
        [("s1", Except.ok ⟨true, none, none, ""⟩), ("s2", Except.error "timeout")]).results.length = 2 :=
  c1_fanout_result_independent (ShardManager.mk ["s1", "s2"]) "docs"
    [("s1", Except.ok ⟨true, none, none, ""⟩), ("s2", Except.error "timeout")]
    (by simp)

/-- C2: the routing divergence demonstrated.  Two shard managers built from
the same two-shard configuration, differing only in the iteration order of
the backing `HashMap` (which Rust randomizes per process, e.g. across a
coordinator restart), route the same collection name to different shards,
whatever the hash value is; so the owner is not the claimed function of the
configured ordered shard list, and it is not stable across restarts. -/
theorem c2_routing_depends_on_map_iteration_order :
    (ShardManager.mk ["s1", "s2"]).shard_key_order.Perm ["s1", "s2"] ∧
    (ShardManager.mk ["s2", "s1"]).shard_key_order.Perm ["s1", "s2"] ∧
    (ShardManager.mk ["s1", "s2"]).get_shard_for_collection "c" ≠
      (ShardManager.mk ["s2", "s1"]).get_shard_for_collection "c" := by
  refine ⟨List.Perm.refl _, List.Perm.swap "s1" "s2" [], ?_⟩
  have h2 : calculate_hash_str "c" % 2 = 0 ∨ calculate_hash_str "c" % 2 = 1 :=
    Nat.mod_two_eq_zero_or_one _
  rcases h2 with h | h <;>
    simp [ShardManager.get_shard_for_collection, h]

/-- C9 (confirmed): for a query fanned out to any number of shards that each
return their own result list of `(bucket_id, vector_index, score)` triples,
the coordinator returns exactly the concatenation of the per-shard lists
(in fan-out order), stably sorted by score descending and truncated to `k`.
The double sort-and-truncate the source performs (once in
`find_similar_across_shards`, once in `find_similar_vectors`) collapses to
that single merge because sorting an already-sorted prefix is the
identity. -/
theorem c9_coordinator_ann_merge (lists : List (List (Nat × Nat × ℚ))) (k : Nat) :
    ShardCoordinator.find_similar_vectors (lists.map some) k =
      Except.ok ((lists.flatten.mergeSort score_desc).take k) := by
  unfold ShardCoordinator.find_similar_vectors find_similar_across_shards
  simp only [List.filterMap_map, Function.id_comp, List.filterMap_some]
  have hsorted : List.Pairwise (fun a b => score_desc a b = true)
      (lists.flatten.mergeSort score_desc) :=
    List.sorted_mergeSort score_desc_trans score_desc_total lists.flatten
  have htake : List.Pairwise (fun a b => score_desc a b = true)
      ((lists.flatten.mergeSort score_desc).take k) :=
    List.Pairwise.sublist (List.take_sublist k _) hsorted
  rw [List.mergeSort_of_sorted htake, List.take_take, Nat.min_self]

/-- Reusable characterization of the wrapping polynomial fold at the heart of
`LSH::hash_value`: running the loop over `0..n` with accumulators starting at
`(0, 1)` yields the sum of the per-round words scaled by powers of 31, all
reduced modulo `2 ^ 64`. -/
theorem wrap_fold_closed_form (f : Nat → Nat) (n : Nat) :
    (List.range n).foldl
      (fun hm i => (add64 hm.1 (mul64 (f i) hm.2), mul64 hm.2 31)) (0, 1) =
      ((((List.range n).map (fun i => f i * 31 ^ i)).sum) % two64,
       31 ^ n % two64) := by
  induction n with
  | zero => simp [two64]
  | succ n ih =>
    rw [List.range_succ, List.foldl_append, ih]
    simp only [List.foldl_cons, List.foldl_nil, List.range_succ, List.map_append,
      List.map_cons, List.map_nil, List.sum_append, List.sum_cons, List.sum_nil,
      Prod.mk.injEq]
    refine ⟨?_, ?_⟩
    · simp only [add64, mul64, Nat.add_zero]
      conv_rhs => rw [Nat.add_mod, Nat.mul_mod]
      conv_lhs => rw [Nat.mul_mod (f n)]
      rw [Nat.mod_mod_of_dvd _ dvd_rfl]
    · simp only [mul64, Nat.pow_succ]
      conv_rhs => rw [Nat.mul_mod]
      rw [Nat.mod_eq_of_lt (show 31 < two64 by norm_num [two64])]

theorem set_getElem_self_eq {α : Type} (l : List α) (i : Nat) (h : i < l.length) :
    l.set i l[i] = l := by
  apply List.ext_getElem <;> simp [List.getElem_set]
  intro j h1 h2 h3
  subst h3
  rfl

theorem modifyFirst_length {α : Type} (p : α → Bool) (f : α → α) (l : List α) :
    (modifyFirst p f l).length = l.length := by
  induction l with
  | nil => rfl
  | cons x xs ih =>
    by_cases hx : p x <;> simp [modifyFirst, hx, ih]

theorem mem_modifyFirst {α : Type} (p : α → Bool) (f : α → α) {x : α} :
    ∀ l : List α, x ∈ modifyFirst p f l →
      x ∈ l ∨ ∃ y ∈ l, p y = true ∧ x = f y := by
  intro l
  induction l with
  | nil => simp [modifyFirst]
  | cons a as ih =>
    intro hx
    by_cases hp : p a
    · rw [modifyFirst, if_pos hp] at hx
      rcases List.mem_cons.mp hx with rfl | hmem
      · exact Or.inr ⟨a, List.mem_cons_self a as, hp, rfl⟩
      · exact Or.inl (List.mem_cons_of_mem a hmem)
    · rw [modifyFirst, if_neg hp] at hx
      rcases List.mem_cons.mp hx with rfl | hmem
      · exact Or.inl (List.mem_cons_self _ _)
      · rcases ih hmem with h | ⟨y, hy, hpy, rfl⟩
        · exact Or.inl (List.mem_cons_of_mem a h)
        · exact Or.inr ⟨y, List.mem_cons_of_mem a hy, hpy, rfl⟩

theorem modifyFirst_append_false {α : Type} (p : α → Bool) (f : α → α)
    (l1 l2 : List α) (h : ∀ x ∈ l1, p x = false) :
    modifyFirst p f (l1 ++ l2) = l1 ++ modifyFirst p f l2 := by
  induction l1 with
  | nil => rfl
  | cons a as ih =>
    have ha : p a = false := h a (List.mem_cons_self a as)
    simp only [List.cons_append, modifyFirst, ha, Bool.false_eq_true, if_false,
      List.cons.injEq, true_and]
    exact ih (fun x hx => h x (List.mem_cons_of_mem a hx))

theorem modifyFirst_eq_set {α : Type} (p : α → Bool) (f : α → α) (l : List α)
    (j : Nat) (hj : l.findIdx? p = some j) :
    ∃ h : j < l.length, modifyFirst p f l = l.set j (f l[j]) := by
  induction l generalizing j with
  | nil => simp at hj
  | cons a as ih =>
    by_cases hp : p a
    · simp [List.findIdx?_cons, hp] at hj
      subst hj
      exact ⟨Nat.succ_pos _, by simp [modifyFirst, hp]⟩
    · simp only [List.findIdx?_cons, hp, Bool.false_eq_true, if_false,
        List.findIdx?_start_succ, Option.map_eq_some'] at hj
      rcases hj with ⟨j0, hj0, rfl⟩
      rcases ih j0 hj0 with ⟨hlt, heq⟩
      refine ⟨by simpa using Nat.succ_lt_succ hlt, ?_⟩
      simp [modifyFirst, hp, heq]

theorem countP_eraseIdx_found {α : Type} (p : α → Bool) (l : List α) (j : Nat)
    (hj : j < l.length) (hp : p l[j] = true) (hcount : l.countP p ≤ 1) :
    ∀ x ∈ l.eraseIdx j, p x = false := by
  have hsplit : l.countP p =
      (l.take j).countP p + ((l.drop (j + 1)).countP p + 1) := by
    conv_lhs => rw [← List.take_append_drop j l]
    rw [List.countP_append, List.drop_eq_getElem_cons hj, List.countP_cons, hp]
    simp [Nat.add_comm]
  have hzero : (l.take j).countP p + (l.drop (j + 1)).countP p = 0 := by omega
  have : (l.eraseIdx j).countP p = 0 := by
    rw [List.eraseIdx_eq_take_drop_succ, List.countP_append]
    omega
  exact fun x hx => by simpa using List.countP_eq_zero.mp this x hx

theorem add_vector_length (vc : VectorController) (e : Option (List ℚ))
    (m : Option (List (String × String))) (vid : Option Nat) (vec : Option Vector)
    (now : Int) :
    (((vc.add_vector e m vid vec now).1).vectors.getD []).length =
      (vc.vectors.getD []).length + 1 := by
  cases vec <;> cases vid <;> simp [VectorController.add_vector]

theorem push_vector_vectors (vc : VectorController) (v : Vector) (now : Int) :
    ((vc.add_vector none none none (some v) now).1).vectors =
      some (vc.vectors.getD [] ++ [v]) := rfl

theorem bucket_add_vector_size (b : Bucket) (e : List ℚ)
    (m : List (String × String)) (now : Int) :
    ((b.add_vector e m now).1).size = b.size + 1 := by
  simpa [Bucket.add_vector, Bucket.size] using
    add_vector_length b.vectors_controller (some e) (some m) none none now

theorem bucket_add_vector_id (b : Bucket) (e : List ℚ)
    (m : List (String × String)) (now : Int) :
    ((b.add_vector e m now).1).id = b.id := rfl

theorem update_vector_length (vc : VectorController) (id : Nat)
    (ne : Option (List ℚ)) (nm : Option (List (String × String))) :
    (((vc.update_vector id ne nm).1).vectors.getD []).length =
      (vc.vectors.getD []).length := by
  cases hv : vc.vectors with
  | none => simp [VectorController.update_vector, hv]
  | some vectors =>
    by_cases ha : vectors.any (fun v => v.hash_id == id)
    · simp [VectorController.update_vector, hv, ha, modifyFirst_length]
    · simp [VectorController.update_vector, hv, ha]

theorem bucket_update_vector_size (b : Bucket) (id : Nat) (ne : Option (List ℚ))
    (nm : Option (List (String × String))) (now : Int) :
    ((b.update_vector id ne nm now).1).size = b.size := by
  have hlen := update_vector_length b.vectors_controller id ne nm
  unfold Bucket.update_vector
  rcases hr : b.vectors_controller.update_vector id ne nm with ⟨vc2, r⟩
  rw [hr] at hlen
  cases r <;> simpa [Bucket.size, hr] using hlen

theorem bucket_update_vector_id (b : Bucket) (id : Nat) (ne : Option (List ℚ))
    (nm : Option (List (String × String))) (now : Int) :
    ((b.update_vector id ne nm now).1).id = b.id := by
  unfold Bucket.update_vector
  rcases hr : b.vectors_controller.update_vector id ne nm with ⟨vc2, r⟩
  cases r <;> simp [hr]

theorem bucket_remove_vector_id (b : Bucket) (id : Nat) (now : Int) :
    ((b.remove_vector id now).1).id = b.id := by
  unfold Bucket.remove_vector
  rcases hr : b.vectors_controller.remove_vector id with ⟨vc2, r⟩
  cases r <;> simp [hr]

theorem bucket_remove_and_get_id (b : Bucket) (id : Nat) (now : Int) :
    ((b.remove_and_get_vector id now).1).id = b.id := by
  unfold Bucket.remove_and_get_vector
  rcases hr : b.vectors_controller.remove_and_get_vector id with ⟨vc2, r⟩
  cases r <;> simp [hr]

theorem get_or_create_exists_form (bc : BucketController) (id : Nat) (now : Int) :
    bc.get_or_create_bucket id now =
      (if (bc.buckets.getD []).any (fun b => b.id == id) then bc
       else { bc with buckets := some (bc.buckets.getD [] ++ [Bucket.new id now]) }) := by
  unfold BucketController.get_or_create_bucket
  cases bc.buckets <;> rfl

theorem map_set_same {α β : Type} (g : α → β) (l : List α) (i : Nat)
    (hi : i < l.length) (b : α) (h : g b = g l[i]) :
    (l.set i b).map g = l.map g := by
  rw [List.map_set]
  have hi2 : i < (l.map g).length := by simpa using hi
  have hb : g b = (l.map g)[i] := by
    simpa [List.getElem_map] using h
  rw [hb, set_getElem_self_eq]

theorem modifyFirst_of_forall_false {α : Type} (p : α → Bool) (f : α → α)
    (l : List α) (h : ∀ x ∈ l, p x = false) : modifyFirst p f l = l := by
  induction l with
  | nil => rfl
  | cons a as ih =>
    have ha : p a = false := h a (List.mem_cons_self a as)
    simp only [modifyFirst, ha, Bool.false_eq_true, if_false, List.cons.injEq, true_and]
    exact ih (fun x hx => h x (List.mem_cons_of_mem a hx))

theorem findIdx?_of_map_nodup {α : Type} (l : List α) (g : α → Nat) (c : Nat)
    (i : Nat) (hi : i < l.length) (hg : g l[i] = c)
    (h : (l.map g).Nodup) : l.findIdx? (fun x => g x == c) = some i := by
  rw [List.findIdx?_eq_some_iff_getElem]
  refine ⟨hi, by simp [hg], ?_⟩
  intro j hj
  have hjl : j < l.length := Nat.lt_trans hj hi
  have hj2 : j < (l.map g).length := by simpa using hjl
  have hi2 : i < (l.map g).length := by simpa using hi
  have hne : ¬ g (l[j]) = g l[i] := by
    intro heq
    have hmapj : (l.map g)[j] = (l.map g)[i] := by
      simpa [List.getElem_map] using heq
    have := (h.getElem_inj_iff).mp hmapj
    omega
  simp [hg] at hne
  simp [hne]

theorem bucket_remove_and_get_error_eq (b : Bucket) (id : Nat) (now : Int)
    (b2 : Bucket) (e : String)
    (h : b.remove_and_get_vector id now = (b2, Except.error e)) : b2 = b := by
  unfold Bucket.remove_and_get_vector at h
  rcases hr : b.vectors_controller.remove_and_get_vector id with ⟨vc2, r⟩
  rw [hr] at h
  cases r <;> simp_all

theorem bucket_remove_vector_error_eq (b : Bucket) (id : Nat) (now : Int)
    (b2 : Bucket) (e : String)
    (h : b.remove_vector id now = (b2, Except.error e)) : b2 = b := by
  unfold Bucket.remove_vector at h
  rcases hr : b.vectors_controller.remove_vector id with ⟨vc2, r⟩
  rw [hr] at h
  cases r <;> simp_all

theorem push_vector_bucket_size (bb : Bucket) (v : Vector) (now : Int) :
    (bb.push_vector v now).size = bb.size + 1 := by
  simp [Bucket.push_vector, Bucket.size, add_vector_length]

theorem push_vector_bucket_id (bb : Bucket) (v : Vector) (now : Int) :
    (bb.push_vector v now).id = bb.id := rfl

theorem any_eq_false_forall {α : Type} (p : α → Bool) (l : List α)
    (h : ¬ l.any p = true) : ∀ x ∈ l, p x = false := by
  intro x hx
  by_contra hc
  exact h (List.any_eq_true.mpr ⟨x, hx, by simpa using hc⟩)

theorem findIdx?_isSome_of_any {α : Type} (p : α → Bool) (l : List α)
    (h : l.any p = true) : ∃ j, l.findIdx? p = some j := by
  induction l with
  | nil => simp at h
  | cons a as ih =>
    by_cases hp : p a = true
    · exact ⟨0, by simp [List.findIdx?_cons, hp]⟩
    · have h2 : as.any p = true := by
        rw [List.any_cons, Bool.or_eq_true] at h
        rcases h with h | h
        · exact absurd h hp
        · exact h
      rcases ih h2 with ⟨j, hj⟩
      exact ⟨j + 1, by simp [List.findIdx?_cons, hp, hj]⟩

theorem modifyFirst_getElem_ne {α : Type} (p : α → Bool) (f : α → α)
    (l : List α) (j k : Nat) (hfind : l.findIdx? p = some j)
    (hk : k < (modifyFirst p f l).length) (hk2 : k < l.length) (hkj : j ≠ k) :
    (modifyFirst p f l)[k] = l[k] := by
  rcases modifyFirst_eq_set p f l j hfind with ⟨hjl, heq⟩
  simp only [heq]
  rw [List.getElem_set, if_neg hkj]

theorem modifyFirst_getElem_found {α : Type} (p : α → Bool) (f : α → α)
    (l : List α) (j : Nat) (hfind : l.findIdx? p = some j)
    (hk : j < (modifyFirst p f l).length) (hj : j < l.length) :
    (modifyFirst p f l)[j] = f (l[j]) := by
  rcases modifyFirst_eq_set p f l j hfind with ⟨hjl, heq⟩
  simp only [heq]
  rw [List.getElem_set, if_pos rfl]

theorem remove_empty_invariant (bc : BucketController) (L2 : List Bucket)
    (i c : Nat) (hbk : bc.buckets = some L2)
    (hilen : i < L2.length)
    (hic : (L2[i]).id = c)
    (hnodup : (L2.map Bucket.id).Nodup)
    (hpos : ∀ k, (hk : k < L2.length) → k ≠ i → 0 < (L2[k]).size) :
    bucket_size_pos (bc.remove_empty_bucket c) ∧
      bucket_ids_nodup (bc.remove_empty_bucket c) := by
  unfold BucketController.remove_empty_bucket
  rw [hbk]
  dsimp only
  have hfind2 : L2.findIdx? (fun b => b.id == c) = some i :=
    findIdx?_of_map_nodup L2 Bucket.id c i hilen hic hnodup
  rw [hfind2]
  dsimp only
  rw [List.getD_eq_getElem _ _ hilen]
  by_cases hz : ((L2[i]).size == 0) = true
  · rw [if_pos hz]
    constructor
    · intro x hx
      simp only [Option.getD_some] at hx
      rw [List.mem_eraseIdx_iff_getElem] at hx
      rcases hx with ⟨k, hk, hki, hxk⟩
      rw [← hxk]
      exact hpos k hk hki
    · show ((L2.eraseIdx i).map Bucket.id).Nodup
      exact ((List.eraseIdx_sublist L2 i).map Bucket.id).nodup hnodup
  · rw [if_neg hz]
    constructor
    · intro x hx
      rw [hbk] at hx
      simp only [Option.getD_some] at hx
      rcases List.mem_iff_getElem.mp hx with ⟨k, hk, hxk⟩
      rw [← hxk]
      by_cases hki : k = i
      · subst hki
        exact Nat.pos_of_ne_zero (by simpa using hz)
      · exact hpos k hk hki
    · show ((bc.buckets.getD []).map Bucket.id).Nodup
      rw [hbk]
      simp only [Option.getD_some]
      exact hnodup

theorem step_insert (bc : BucketController) (e : List ℚ)
    (m : List (String × String)) (now : Int)
    (h1 : bucket_size_pos bc) (h2 : bucket_ids_nodup bc) :
    bucket_size_pos ((bc.add_vector e m now).1) ∧
      bucket_ids_nodup ((bc.add_vector e m now).1) := by
  unfold BucketController.add_vector
  cases hlsh : bc.lsh with
  | none => exact ⟨h1, h2⟩
  | some lsh =>
    cases hdim : bc.dimension with
    | none => exact ⟨h1, h2⟩
    | some dim =>
      dsimp only
      by_cases hlen : e.length ≠ dim
      · rw [if_pos hlen]
        exact ⟨h1, h2⟩
      · rw [if_neg hlen]
        cases hh : lsh.hash e with
        | none => exact ⟨h1, h2⟩
        | some bucket_hash =>
          dsimp only
          rw [get_or_create_exists_form]
          by_cases hex : (bc.buckets.getD []).any (fun b => b.id == bucket_hash)
          · rw [if_pos hex]
            constructor
            · intro x hx
              simp only [Option.getD_some] at hx
              rcases mem_modifyFirst _ _ _ hx with hmem | ⟨y, hy, _, rfl⟩
              · exact h1 x hmem
              · rw [bucket_add_vector_size]
                exact Nat.succ_pos _
            · show ((modifyFirst _ _ (bc.buckets.getD [])).map Bucket.id).Nodup
              rw [modifyFirst_map_eq _ _ _ (fun x => bucket_add_vector_id x e m now)]
              exact h2
          · rw [if_neg hex]
            have hall : ∀ x ∈ bc.buckets.getD [], (x.id == bucket_hash) = false :=
              any_eq_false_forall _ _ hex
            have hfreshp : ((Bucket.new bucket_hash now).id == bucket_hash) = true := by
              simp [Bucket.new]
            have hform : modifyFirst (fun b => b.id == bucket_hash)
                (fun b => (b.add_vector e m now).1)
                (bc.buckets.getD [] ++ [Bucket.new bucket_hash now]) =
                bc.buckets.getD [] ++
                  [((Bucket.new bucket_hash now).add_vector e m now).1] := by
              rw [modifyFirst_append_false _ _ _ _ hall]
              simp [modifyFirst, hfreshp]
            constructor
            · intro x hx
              simp only [Option.getD_some, hform] at hx
              rcases List.mem_append.mp hx with hmem | hsingle
              · exact h1 x hmem
              · have hx2 : x = ((Bucket.new bucket_hash now).add_vector e m now).1 := by
                  simpa using hsingle
                rw [hx2, bucket_add_vector_size]
                exact Nat.succ_pos _
            · show ((modifyFirst _ _ (bc.buckets.getD [] ++ [Bucket.new bucket_hash now])).map
                Bucket.id).Nodup
              rw [hform]
              rw [List.map_append]
              rw [List.nodup_append]
              refine ⟨h2, by simp, ?_⟩
              intro a ha hb2
              simp only [List.map_cons, List.map_nil, List.mem_cons,
                List.not_mem_nil, or_false, bucket_add_vector_id] at hb2
              have ha2 : a = bucket_hash := by
                rw [hb2]
                rfl
              rcases List.mem_map.mp ha with ⟨y, hy, hya⟩
              have hfa := hall y hy
              rw [hya, ha2] at hfa
              simp at hfa

theorem step_delete (bc : BucketController) (id : Nat) (now : Int)
    (h1 : bucket_size_pos bc) (h2 : bucket_ids_nodup bc) :
    bucket_size_pos ((bc.remove_vector id now).1) ∧
      bucket_ids_nodup ((bc.remove_vector id now).1) := by
  unfold BucketController.remove_vector
  cases hb : bc.buckets with
  | none => exact ⟨h1, h2⟩
  | some bs =>
    dsimp only
    have h1b : ∀ b ∈ bs, 0 < b.size := by
      intro b hmem
      exact h1 b (by rw [hb]; simpa using hmem)
    have h2b : (bs.map Bucket.id).Nodup := by
      have := h2
      rw [bucket_ids_nodup, hb] at this
      simpa using this
    cases hf : bs.findIdx? (fun b => b.contains_vector id) with
    | none => exact ⟨h1, h2⟩
    | some i =>
      dsimp only
      rcases List.findIdx?_eq_some_iff_getElem.mp hf with ⟨hi, hpi, _⟩
      rw [List.getD_eq_getElem _ _ hi]
      rcases hrem : bs[i].remove_vector id now with ⟨b2, r⟩
      have hb2id : b2.id = bs[i].id := by
        have := bucket_remove_vector_id bs[i] id now
        rw [hrem] at this
        exact this
      have hsetpos : ∀ x ∈ bs.set i b2, b2.size ≠ 0 → 0 < x.size := by
        intro x hx hz
        rcases List.mem_or_eq_of_mem_set hx with hmem | rfl
        · exact h1b x hmem
        · exact Nat.pos_of_ne_zero hz
      have hsetnodup : ((bs.set i b2).map Bucket.id).Nodup := by
        rw [map_set_same Bucket.id bs i hi b2 hb2id]
        exact h2b
      cases r with
      | ok _ =>
        by_cases hz : b2.size == 0
        · rw [if_pos hz]
          constructor
          · intro x hx
            simp only [Option.getD_some] at hx
            exact h1b x ((List.eraseIdx_sublist bs i).subset hx)
          · show ((bs.eraseIdx i).map Bucket.id).Nodup
            exact ((List.eraseIdx_sublist bs i).map Bucket.id).nodup h2b
        · rw [if_neg hz]
          refine ⟨?_, hsetnodup⟩
          intro x hx
          simp only [Option.getD_some] at hx
          exact hsetpos x hx (by simpa using hz)
      | error e =>
        refine ⟨?_, hsetnodup⟩
        intro x hx
        simp only [Option.getD_some] at hx
        rcases List.mem_or_eq_of_mem_set hx with hmem | hx2
        · exact h1b x hmem
        · have hbeq : b2 = bs[i] :=
            bucket_remove_vector_error_eq bs[i] id now b2 e hrem
          rw [hx2, hbeq]
          exact h1b bs[i] (List.getElem_mem hi)

theorem step_update (bc : BucketController) (id : Nat)
    (ne : Option (List ℚ)) (nm : Option (List (String × String))) (now : Int)
    (h1 : bucket_size_pos bc) (h2 : bucket_ids_nodup bc) :
    bucket_size_pos ((bc.update_vector id ne nm now).1) ∧
      bucket_ids_nodup ((bc.update_vector id ne nm now).1) := by
  unfold BucketController.update_vector
  cases hlsh : bc.lsh with
  | none => exact ⟨h1, h2⟩
  | some lsh =>
    cases hdim : bc.dimension with
    | none => exact ⟨h1, h2⟩
    | some dim =>
      cases hbuck : bc.buckets with
      | none => exact ⟨h1, h2⟩
      | some bs =>
        dsimp only
        cases hf : bs.findIdx? (fun b => b.contains_vector id) with
        | none => exact ⟨h1, h2⟩
        | some i =>
          dsimp only
          rcases List.findIdx?_eq_some_iff_getElem.mp hf with ⟨hi, hpi, _⟩
          rw [List.getD_eq_getElem _ _ hi]
          have h1b : ∀ b ∈ bs, 0 < b.size := by
            intro b hmem
            exact h1 b (by rw [hbuck]; simpa using hmem)
          have h2b : (bs.map Bucket.id).Nodup := by
            have hx := h2
            rw [bucket_ids_nodup, hbuck] at hx
            simpa using hx
          cases hg : bs[i].get_vector id with
          | none => exact ⟨h1, h2⟩
          | some v =>
            dsimp only
            by_cases hdc : (ne.map List.length).getD dim ≠ dim
            · rw [if_pos hdc]
              exact ⟨h1, h2⟩
            · rw [if_neg hdc]
              cases hh : lsh.hash (ne.getD v.data) with
              | none => exact ⟨h1, h2⟩
              | some nh =>
                dsimp only
                by_cases hbid : (bs[i].id == nh) = true
                · rw [if_pos hbid]
                  dsimp only
                  have hbu1 : ((bs[i].update_vector id ne nm now).1).size
                      = bs[i].size := bucket_update_vector_size bs[i] id ne nm now
                  have hbu2 : ((bs[i].update_vector id ne nm now).1).id
                      = bs[i].id := bucket_update_vector_id bs[i] id ne nm now
                  constructor
                  · intro x hx
                    simp only [Option.getD_some] at hx
                    rcases List.mem_or_eq_of_mem_set hx with hmem | hx2
                    · exact h1b x hmem
                    · rw [hx2, hbu1]
                      exact h1b bs[i] (List.getElem_mem hi)
                  · show ((bs.set i ((bs[i].update_vector id ne nm now).1)).map
                      Bucket.id).Nodup
                    rw [map_set_same Bucket.id bs i hi _ hbu2]
                    exact h2b
                · rw [if_neg hbid]
                  rcases hrg : bs[i].remove_and_get_vector id now with ⟨b2, r⟩
                  cases r with
                  | error e =>
                    dsimp only
                    have hbeq : b2 = bs[i] :=
                      bucket_remove_and_get_error_eq bs[i] id now b2 e hrg
                    constructor
                    · intro x hx
                      simp only [Option.getD_some] at hx
                      rcases List.mem_or_eq_of_mem_set hx with hmem | hx2
                      · exact h1b x hmem
                      · rw [hx2, hbeq]
                        exact h1b bs[i] (List.getElem_mem hi)
                    · show ((bs.set i b2).map Bucket.id).Nodup
                      rw [map_set_same Bucket.id bs i hi b2 (by rw [hbeq])]
                      exact h2b
                  | ok moved =>
                    dsimp only
                    have hb2id : b2.id = bs[i].id := by
                      have hx := bucket_remove_and_get_id bs[i] id now
                      rw [hrg] at hx
                      exact hx
                    have hL0map : ((bs.set i b2).map Bucket.id) = bs.map Bucket.id :=
                      map_set_same Bucket.id bs i hi b2 hb2id
                    have hpib : (b2.id == nh) = false := by
                      rw [hb2id]
                      simpa using hbid
                    rw [get_or_create_exists_form]
                    simp only [Option.getD_some]
                    by_cases hex : ((bs.set i b2).any (fun bb => bb.id == nh)) = true
                    · rw [if_pos hex]
                      simp only [Option.getD_some]
                      obtain ⟨j, hfind0⟩ := findIdx?_isSome_of_any _ _ hex
                      rcases List.findIdx?_eq_some_iff_getElem.mp hfind0 with
                        ⟨hjl, hpj, _⟩
                      have hji : j ≠ i := by
                        intro hji0
                        subst hji0
                        rw [List.getElem_set, if_pos rfl] at hpj
                        simp [hpib] at hpj
                      refine remove_empty_invariant _ _ i bs[i].id rfl ?_ ?_ ?_ ?_
                      · rw [modifyFirst_length]
                        simpa using hi
                      · rw [modifyFirst_getElem_ne _ _ _ j i hfind0
                          (by rw [modifyFirst_length]; simpa using hi)
                          (by simpa using hi) hji]
                        rw [List.getElem_set, if_pos rfl]
                        exact hb2id
                      · rw [modifyFirst_map_eq _ _ Bucket.id
                          (fun x => push_vector_bucket_id x _ now), hL0map]
                        exact h2b
                      · intro k hk hki
                        have hk2 : k < (bs.set i b2).length := by
                          rw [modifyFirst_length] at hk
                          exact hk
                        have hkbs : k < bs.length := by simpa using hk2
                        by_cases hkj : j = k
                        · subst hkj
                          rw [modifyFirst_getElem_found _ _ _ j hfind0 hk hk2]
                          rw [push_vector_bucket_size]
                          omega
                        · rw [modifyFirst_getElem_ne _ _ _ j k hfind0 hk hk2 hkj]
                          rw [List.getElem_set, if_neg (Ne.symm hki)]
                          exact h1b bs[k] (List.getElem_mem hkbs)
                    · rw [if_neg hex]
                      simp only [Option.getD_some]
                      have hall0 : ∀ x ∈ bs.set i b2, (x.id == nh) = false :=
                        any_eq_false_forall _ _ hex
                      have hlen0 : (bs.set i b2).length = bs.length := by simp
                      have hfind0 : ((bs.set i b2) ++ [Bucket.new nh now]).findIdx?
                          (fun bb => bb.id == nh) = some (bs.set i b2).length := by
                        rw [List.findIdx?_eq_some_iff_getElem]
                        refine ⟨by simp, ?_, ?_⟩
                        · simp [Bucket.new]
                        · intro k hk
                          have hka : k < ((bs.set i b2) ++ [Bucket.new nh now]).length := by
                            simp only [List.length_append, List.length_cons,
                              List.length_nil]
                            omega
                          have hkbs2 : k < bs.length := by
                            rw [← hlen0]
                            exact hk
                          have happ : ((bs.set i b2) ++ [Bucket.new nh now])[k]
                              = (bs.set i b2)[k] := by
                            simp [List.getElem_append, hkbs2]
                          rw [happ]
                          simp [hall0 _ (List.getElem_mem hk)]
                      have hjlen1 : (bs.set i b2).length <
                          ((bs.set i b2) ++ [Bucket.new nh now]).length := by simp
                      have hji : (bs.set i b2).length ≠ i := by
                        rw [hlen0]
                        omega
                      refine remove_empty_invariant _ _ i bs[i].id rfl ?_ ?_ ?_ ?_
                      · rw [modifyFirst_length]
                        simp only [List.length_append, List.length_set,
                          List.length_cons, List.length_nil]
                        omega
                      · have hi0 : i < (bs.set i b2).length := by
                          rw [hlen0]
                          exact hi
                        rw [modifyFirst_getElem_ne _ _ _ (bs.set i b2).length i hfind0
                          (by rw [modifyFirst_length]
                              simp only [List.length_append, List.length_set,
                                List.length_cons, List.length_nil]
                              omega)
                          (by simp only [List.length_append, List.length_set,
                                List.length_cons, List.length_nil]
                              omega) hji]
                        have happ : ((bs.set i b2) ++ [Bucket.new nh now])[i]
                            = (bs.set i b2)[i] := by
                          simp [List.getElem_append, hi]
                        rw [happ, List.getElem_set, if_pos rfl]
                        exact hb2id
                      · rw [modifyFirst_map_eq _ _ Bucket.id
                          (fun x => push_vector_bucket_id x _ now)]
                        rw [List.map_append, hL0map]
                        rw [List.nodup_append]
                        refine ⟨h2b, by simp, ?_⟩
                        intro a ha hb2x
                        have ha2 : a = nh := by
                          simpa [Bucket.new] using hb2x
                        subst ha2
                        rw [← hL0map] at ha
                        rcases List.mem_map.mp ha with ⟨y, hy, hya⟩
                        have hfa := hall0 y hy
                        rw [hya] at hfa
                        simp at hfa
                      · intro k hk hki
                        have hk2 : k < ((bs.set i b2) ++ [Bucket.new nh now]).length := by
                          rw [modifyFirst_length] at hk
                          exact hk
                        by_cases hkj : (bs.set i b2).length = k
                        · subst hkj
                          rw [modifyFirst_getElem_found _ _ _ (bs.set i b2).length
                            hfind0 hk hjlen1]
                          rw [push_vector_bucket_size]
                          omega
                        · rw [modifyFirst_getElem_ne _ _ _ (bs.set i b2).length k
                            hfind0 hk hk2 hkj]
                          have hk0 : k < (bs.set i b2).length := by
                            have h3 : k < (bs.set i b2).length + 1 := by
                              simpa using hk2
                            rcases Nat.lt_succ_iff_lt_or_eq.mp h3 with h4 | h4
                            · exact h4
                            · exact absurd h4.symm hkj
                          have hkbs : k < bs.length := by
                            rw [← hlen0]
                            exact hk0
                          have happ2 : ((bs.set i b2) ++ [Bucket.new nh now])[k]
                              = (bs.set i b2)[k] := by
                            simp [List.getElem_append, hkbs]
                          rw [happ2]
                          rw [List.getElem_set, if_neg (Ne.symm hki)]
                          exact h1b bs[k] (List.getElem_mem hkbs)

/-- C7 (confirmed): starting from a freshly constructed bucket controller,
after any sequence of vector inserts, deletes and updates, no bucket of the
index is empty: every bucket present holds at least one vector.  The
operation that removes a bucket's last vector also removes the bucket from
the index within the same call (`remove_vector` erases it directly,
`update_vector` drops an emptied source bucket through
`remove_empty_bucket`), and insertion only ever grows a bucket, so the
invariant `size() > 0` is preserved by every operation (the proof carries
the auxiliary invariant that bucket ids stay pairwise distinct). -/
theorem c7_no_empty_bucket_after_any_ops (dimension num_hashes : Nat)
    (bucket_width : ℚ) (metric : LSHMetric) (seed : Option Nat)
    (ops : List DbOp) :
    bucket_size_pos (ops.foldl DbOp.apply
      (BucketController.new dimension num_hashes bucket_width metric seed)) := by
  have main : ∀ (l : List DbOp) (st : BucketController),
      bucket_size_pos st → bucket_ids_nodup st →
      bucket_size_pos (l.foldl DbOp.apply st) ∧
        bucket_ids_nodup (l.foldl DbOp.apply st) := by
    intro l
    induction l with
    | nil => intro st ha hb; exact ⟨ha, hb⟩
    | cons op rest ih =>
      intro st ha hb
      have hstep : bucket_size_pos (DbOp.apply st op) ∧
          bucket_ids_nodup (DbOp.apply st op) := by
        cases op with
        | insert e m now => exact step_insert st e m now ha hb
        | delete vid now => exact step_delete st vid now ha hb
        | update vid nemb nmeta now => exact step_update st vid nemb nmeta now ha hb
      exact ih (DbOp.apply st op) hstep.1 hstep.2
  have hinit1 : bucket_size_pos
      (BucketController.new dimension num_hashes bucket_width metric seed) := by
    intro b hb
    simp [BucketController.new] at hb
  have hinit2 : bucket_ids_nodup
      (BucketController.new dimension num_hashes bucket_width metric seed) := by
    simp [bucket_ids_nodup, BucketController.new]
  exact (main ops _ hinit1 hinit2).1

theorem find?_isSome_eq_any {α : Type} (p : α → Bool) (l : List α) :
    (l.find? p).isSome = l.any p := by
  induction l with
  | nil => rfl
  | cons a as ih =>
    by_cases hp : p a = true
    · rw [List.find?_cons_of_pos _ hp, List.any_cons, hp]
      simp
    · rw [List.find?_cons_of_neg _ hp, List.any_cons]
      have hp2 : p a = false := by simpa using hp
      rw [hp2]
      simpa using ih

theorem contains_eq_any (b : Bucket) (c : Nat) :
    b.contains_vector c =
      (b.vectors_controller.vectors.getD []).any (fun w => w.hash_id == c) := by
  unfold Bucket.contains_vector Bucket.get_vector VectorController.get_vector_by_id
  exact find?_isSome_eq_any _ _

theorem any_hash_eq_of_map_eq (l1 l2 : List Vector)
    (h : l1.map Vector.hash_id = l2.map Vector.hash_id) (c : Nat) :
    l1.any (fun w => w.hash_id == c) = l2.any (fun w => w.hash_id == c) := by
  have h1 : ∀ (l : List Vector), l.any (fun w => w.hash_id == c)
      = (l.map Vector.hash_id).any (fun x => x == c) := by
    intro l
    induction l with
    | nil => rfl
    | cons a as ih => simp [List.any_cons, ih]
  rw [h1, h1, h]

theorem bucket_update_vector_snd_ok (b : Bucket) (c : Nat)
    (ne : Option (List ℚ)) (nm : Option (List (String × String))) (now : Int)
    (h : b.contains_vector c = true) :
    (b.update_vector c ne nm now).2 = Except.ok () := by
  rw [contains_eq_any] at h
  unfold Bucket.update_vector VectorController.update_vector
  cases hvl : b.vectors_controller.vectors with
  | none =>
    rw [hvl] at h
    simp at h
  | some vl =>
    rw [hvl] at h
    simp only [Option.getD_some] at h
    dsimp only
    rw [if_pos h]

theorem bucket_update_vector_contains_eq (b : Bucket) (c c2 : Nat)
    (ne : Option (List ℚ)) (nm : Option (List (String × String))) (now : Int) :
    ((b.update_vector c ne nm now).1).contains_vector c2 = b.contains_vector c2 := by
  unfold Bucket.update_vector VectorController.update_vector
  cases hvl : b.vectors_controller.vectors with
  | none => rfl
  | some vl =>
    dsimp only
    by_cases ha : vl.any (fun v => v.hash_id == c) = true
    · rw [if_pos ha]
      dsimp only
      rw [contains_eq_any, contains_eq_any]
      simp only [Option.getD_some]
      rw [hvl]
      simp only [Option.getD_some]
      exact any_hash_eq_of_map_eq _ _
        (modifyFirst_map_eq (fun v => v.hash_id == c)
          (fun v => { v with data := ne.getD v.data,
                             metadata := nm.getD v.metadata })
          Vector.hash_id (fun x => rfl) vl) c2
    · rw [if_neg ha]

theorem bucket_remove_and_get_spec (b : Bucket) (c : Nat) (now : Int)
    (h : b.contains_vector c = true)
    (hcnt : ((b.vectors_controller.vectors.getD []).countP
      (fun w => w.hash_id == c)) ≤ 1) :
    ∃ mv, (b.remove_and_get_vector c now).2 = Except.ok mv ∧ mv.hash_id = c ∧
      ((b.remove_and_get_vector c now).1).contains_vector c = false := by
  rw [contains_eq_any] at h
  unfold Bucket.remove_and_get_vector VectorController.remove_and_get_vector
  cases hvl : b.vectors_controller.vectors with
  | none =>
    rw [hvl] at h
    simp at h
  | some vl =>
    rw [hvl] at h hcnt
    simp only [Option.getD_some] at h hcnt
    dsimp only
    obtain ⟨pos, hpos⟩ := findIdx?_isSome_of_any _ _ h
    rw [hpos]
    dsimp only
    rcases List.findIdx?_eq_some_iff_getElem.mp hpos with ⟨hposlen, hppos, _⟩
    have hget : vl.get? pos = some vl[pos] := by
      rw [List.get?_eq_getElem?]
      exact List.getElem?_eq_getElem hposlen
    rw [hget]
    dsimp only
    refine ⟨vl[pos], rfl, by simpa using hppos, ?_⟩
    rw [contains_eq_any]
    simp only [Option.getD_some]
    have hall := countP_eraseIdx_found (fun w => w.hash_id == c) vl pos hposlen
      hppos hcnt
    rw [List.any_eq_false]
    intro x hx
    have hfx := hall x hx
    dsimp only at hfx
    rw [hfx]
    simp

theorem remove_empty_bucket_mem (bc : BucketController) (c : Nat) :
    ∀ b ∈ ((bc.remove_empty_bucket c).buckets.getD []), b ∈ bc.buckets.getD [] := by
  intro b hb
  unfold BucketController.remove_empty_bucket at hb
  split at hb
  · exact hb
  · rename_i bs2 hsome
    split at hb
    · exact hb
    · rename_i pos hfindp
      split at hb
      · simp only [Option.getD_some] at hb
        rw [hsome]
        simp only [Option.getD_some]
        exact (List.eraseIdx_sublist bs2 pos).subset hb
      · exact hb

theorem push_vector_contains_self (y : Bucket) (mv : Vector) (now : Int) (c : Nat)
    (h : mv.hash_id = c) : (y.push_vector mv now).contains_vector c = true := by
  rw [contains_eq_any]
  simp [Bucket.push_vector, push_vector_vectors, h]

theorem nodup_map_getElem_ne {α β : Type} (g : α → β) (l : List α)
    (h : (l.map g).Nodup) (k j : Nat) (hk : k < l.length) (hj : j < l.length)
    (hkj : k ≠ j) : g (l[k]) ≠ g (l[j]) := by
  intro heq
  have hk2 : k < (l.map g).length := by simpa using hk
  have hj2 : j < (l.map g).length := by simpa using hj
  have hmapk : (l.map g)[k] = (l.map g)[j] := by
    simpa [List.getElem_map] using heq
  have h2 := (h.getElem_inj_iff).mp hmapk
  exact hkj h2

theorem lsh1_hash_eval (x : ℚ) (n : Int) (hx : ⌊x⌋ = n) (hn : 0 ≤ n)
    (hlt : n < ((two64 : Nat) : Int)) :
    (⟨1, 1, [[1]], [0], 1, LSHMetric.Euclidean⟩ : LSH).hash [x] = some n.toNat := by
  have hmod : n.emod ((two64 : Nat) : Int) = n := Int.emod_eq_of_lt hn hlt
  have hlt3 : n < ((18446744073709551616 : Nat) : Int) := hlt
  have hlt2 : n.toNat < (18446744073709551616 : Nat) := by omega
  unfold LSH.hash LSH.hash_value LSH.compute_distance LSH.euclidean_distance
  simp [List.range_succ, add64, mul64, hx, hmod]
  rw [Nat.mod_eq_of_lt]
  exact hlt2

/-- C6 (confirmed): update migration consistency.  On a well-formed index
(hasher, dimension and bucket list present, bucket ids pairwise distinct,
exactly one bucket holding the vector and holding it once) and an update
carrying new data of the configured dimension, `update_vector` succeeds and
afterwards every bucket of the index contains the vector exactly when its
bucket id is the hash of the new data: when the new hash equals the current
bucket's id the vector is updated in place, otherwise it is extracted from
the old bucket, its fields replaced, and pushed into the bucket of the new
hash (created on demand), the emptied source bucket being dropped. -/
theorem c6_update_migration_membership (bc : BucketController) (id : Nat)
    (newData : List ℚ) (nm : Option (List (String × String))) (now : Int)
    (l : LSH) (dim : Nat) (bs : List Bucket) (nh : Nat) (i : Nat)
    (hlsh : bc.lsh = some l) (hdim : bc.dimension = some dim)
    (hbk : bc.buckets = some bs)
    (hnodup : (bs.map Bucket.id).Nodup)
    (hlen : newData.length = dim)
    (hhash : l.hash newData = some nh)
    (hi : i < bs.length)
    (hconts : (bs[i]).contains_vector id = true)
    (honly : ∀ j, (hj : j < bs.length) → j ≠ i →
      (bs[j]).contains_vector id = false)
    (hin : (((bs[i]).vectors_controller.vectors.getD []).countP
      (fun w => w.hash_id == id)) ≤ 1) :
    (bc.update_vector id (some newData) nm now).2 = Except.ok () ∧
    ∀ b ∈ (((bc.update_vector id (some newData) nm now).1).buckets.getD []),
      (b.contains_vector id = true ↔ b.id = nh) := by
  unfold BucketController.update_vector
  rw [hlsh, hdim, hbk]
  dsimp only
  have hfind : bs.findIdx? (fun b => b.contains_vector id) = some i := by
    rw [List.findIdx?_eq_some_iff_getElem]
    refine ⟨hi, hconts, ?_⟩
    intro j hj
    rw [honly j (Nat.lt_trans hj hi) (Nat.ne_of_lt hj)]
    simp
  rw [hfind]
  dsimp only
  rw [List.getD_eq_getElem _ _ hi]
  cases hv : bs[i].get_vector id with
  | none =>
    exfalso
    have hc2 := hconts
    unfold Bucket.contains_vector at hc2
    rw [hv] at hc2
    simp at hc2
  | some v =>
    dsimp only
    have hdc : ¬(((some newData).map List.length).getD dim ≠ dim) := by
      simp [hlen]
    rw [if_neg hdc]
    simp only [Option.getD_some]
    rw [hhash]
    dsimp only
    by_cases hbid : (bs[i].id == nh) = true
    · rw [if_pos hbid]
      dsimp only
      have hnh : bs[i].id = nh := by simpa using hbid
      constructor
      · rw [bucket_update_vector_snd_ok bs[i] id (some newData) nm now hconts]
      · intro b hb
        simp only [Option.getD_some] at hb
        rcases List.mem_iff_getElem.mp hb with ⟨k, hk, hbk2⟩
        have hk2 : k < bs.length := by simpa using hk
        rw [← hbk2]
        by_cases hki : k = i
        · subst hki
          rw [List.getElem_set, if_pos rfl]
          refine ⟨fun _ => ?_, fun _ => ?_⟩
          · rw [bucket_update_vector_id]
            exact hnh
          · rw [bucket_update_vector_contains_eq]
            exact hconts
        · rw [List.getElem_set, if_neg (fun hh2 => hki hh2.symm)]
          have hcf : bs[k].contains_vector id = false := honly k hk2 hki
          have hne2 : bs[k].id ≠ nh := by
            rw [← hnh]
            exact nodup_map_getElem_ne Bucket.id bs hnodup k i hk2 hi hki
          refine ⟨fun hcc => ?_, fun hii => ?_⟩
          · rw [hcf] at hcc
            exact absurd hcc (by simp)
          · exact absurd hii hne2
    · rw [if_neg hbid]
      obtain ⟨mv, hok2, hmvid, hb2nc⟩ :=
        bucket_remove_and_get_spec bs[i] id now hconts hin
      rcases hrg : bs[i].remove_and_get_vector id now with ⟨b2, r⟩
      rw [hrg] at hok2 hb2nc
      cases r with
      | error e => simp at hok2
      | ok moved =>
        dsimp only
        have hmoved : moved = mv := by simpa using hok2
        subst hmoved
        dsimp only at hb2nc
        have hb2id : b2.id = bs[i].id := by
          have hx := bucket_remove_and_get_id bs[i] id now
          rw [hrg] at hx
          exact hx
        have hL0map : ((bs.set i b2).map Bucket.id) = bs.map Bucket.id :=
          map_set_same Bucket.id bs i hi b2 hb2id
        have hpib : (b2.id == nh) = false := by
          rw [hb2id]
          simpa using hbid
        rw [get_or_create_exists_form]
        simp only [Option.getD_some]
        by_cases hex : ((bs.set i b2).any (fun bb => bb.id == nh)) = true
        · rw [if_pos hex]
          simp only [Option.getD_some]
          obtain ⟨j, hfind0⟩ := findIdx?_isSome_of_any _ _ hex
          rcases List.findIdx?_eq_some_iff_getElem.mp hfind0 with ⟨hjl, hpj, _⟩
          have hji : j ≠ i := by
            intro hji0
            subst hji0
            rw [List.getElem_set, if_pos rfl] at hpj
            simp [hpib] at hpj
          have hjbs : j < bs.length := by simpa using hjl
          have hLj : (bs.set i b2)[j] = bs[j] := by
            rw [List.getElem_set, if_neg (fun hh2 => hji hh2.symm)]
          have hbsj : bs[j].id = nh := by
            have hjnh : ((bs.set i b2)[j]).id = nh := by simpa using hpj
            rw [← hLj]
            exact hjnh
          constructor
          · trivial
          · intro b hb
            have hbmem := remove_empty_bucket_mem _ bs[i].id b hb
            simp only [Option.getD_some] at hbmem
            rcases List.mem_iff_getElem.mp hbmem with ⟨k, hk, hbk2⟩
            rw [← hbk2]
            have hk2 : k < (bs.set i b2).length := by
              rw [modifyFirst_length] at hk
              exact hk
            have hkbs : k < bs.length := by simpa using hk2
            by_cases hkj : k = j
            · subst hkj
              rw [modifyFirst_getElem_found _ _ _ k hfind0 hk hk2]
              refine ⟨fun _ => ?_, fun _ => ?_⟩
              · rw [push_vector_bucket_id, hLj]
                exact hbsj
              · exact push_vector_contains_self _ _ _ _ hmvid
            · rw [modifyFirst_getElem_ne _ _ _ j k hfind0 hk hk2
                (fun hh2 => hkj hh2.symm)]
              by_cases hki : k = i
              · subst hki
                rw [List.getElem_set, if_pos rfl]
                refine ⟨fun hcc => ?_, fun hii => ?_⟩
                · rw [hb2nc] at hcc
                  exact absurd hcc (by simp)
                · rw [hii] at hpib
                  simp at hpib
              · rw [List.getElem_set, if_neg (fun hh2 => hki hh2.symm)]
                have hcf : bs[k].contains_vector id = false := honly k hkbs hki
                have hne2 : bs[k].id ≠ nh := by
                  rw [← hbsj]
                  exact nodup_map_getElem_ne Bucket.id bs hnodup k j hkbs hjbs hkj
                refine ⟨fun hcc => ?_, fun hii => ?_⟩
                · rw [hcf] at hcc
                  exact absurd hcc (by simp)
                · exact absurd hii hne2
        · rw [if_neg hex]
          simp only [Option.getD_some]
          have hall0 : ∀ x ∈ bs.set i b2, (x.id == nh) = false :=
            any_eq_false_forall _ _ hex
          have hlen0 : (bs.set i b2).length = bs.length := by simp
          have hfind0 : ((bs.set i b2) ++ [Bucket.new nh now]).findIdx?
              (fun bb => bb.id == nh) = some (bs.set i b2).length := by
            rw [List.findIdx?_eq_some_iff_getElem]
            refine ⟨by simp, ?_, ?_⟩
            · simp [Bucket.new]
            · intro k hk
              have hkbs2 : k < bs.length := by
                rw [← hlen0]
                exact hk
              have hka : k < ((bs.set i b2) ++ [Bucket.new nh now]).length := by
                simp only [List.length_append, List.length_set,
                  List.length_cons, List.length_nil]
                omega
              have happ : ((bs.set i b2) ++ [Bucket.new nh now])[k]
                  = (bs.set i b2)[k] := by
                simp [List.getElem_append, hkbs2]
              rw [happ]
              simp [hall0 _ (List.getElem_mem hk)]
          have hjlen1 : (bs.set i b2).length <
              ((bs.set i b2) ++ [Bucket.new nh now]).length := by simp
          constructor
          · trivial
          · intro b hb
            have hbmem := remove_empty_bucket_mem _ bs[i].id b hb
            simp only [Option.getD_some] at hbmem
            rcases List.mem_iff_getElem.mp hbmem with ⟨k, hk, hbk2⟩
            rw [← hbk2]
            have hk2 : k < ((bs.set i b2) ++ [Bucket.new nh now]).length := by
              rw [modifyFirst_length] at hk
              exact hk
            by_cases hkj : k = (bs.set i b2).length
            · subst hkj
              rw [modifyFirst_getElem_found _ _ _ _ hfind0 hk hjlen1]
              have hfl : ((bs.set i b2) ++ [Bucket.new nh now])[(bs.set i b2).length]
                  = Bucket.new nh now := by
                simp
              rw [hfl]
              refine ⟨fun _ => ?_, fun _ => ?_⟩
              · rw [push_vector_bucket_id]
                rfl
              · exact push_vector_contains_self _ _ _ _ hmvid
            · rw [modifyFirst_getElem_ne _ _ _ (bs.set i b2).length k hfind0
                hk hk2 (fun hh2 => hkj hh2.symm)]
              have hk0 : k < (bs.set i b2).length := by
                have h3 : k < (bs.set i b2).length + 1 := by
                  simpa using hk2
                rcases Nat.lt_succ_iff_lt_or_eq.mp h3 with h4 | h4
                · exact h4
                · exact absurd h4 hkj
              have hkbs : k < bs.length := by
                rw [← hlen0]
                exact hk0
              have happ2 : ((bs.set i b2) ++ [Bucket.new nh now])[k]
                  = (bs.set i b2)[k] := by
                simp [List.getElem_append, hkbs]
              rw [happ2]
              have hidf : (((bs.set i b2))[k].id == nh) = false :=
                hall0 _ (List.getElem_mem hk0)
              by_cases hki : k = i
              · subst hki
                rw [List.getElem_set, if_pos rfl]
                refine ⟨fun hcc => ?_, fun hii => ?_⟩
                · rw [hb2nc] at hcc
                  exact absurd hcc (by simp)
                · rw [hii] at hpib
                  simp at hpib
              · rw [List.getElem_set, if_neg (fun hh2 => hki hh2.symm)]
                have hcf : bs[k].contains_vector id = false := honly k hkbs hki
                have hne2 : bs[k].id ≠ nh := by
                  intro hii
                  rw [List.getElem_set, if_neg (fun hh2 => hki hh2.symm)] at hidf
                  rw [hii] at hidf
                  simp at hidf
                refine ⟨fun hcc => ?_, fun hii => ?_⟩
                · rw [hcf] at hcc
                  exact absurd hcc (by simp)
                · exact absurd hii hne2

/-- C6 witness: a one-dimensional index with a single bucket of id 5 holding
the vector of id 100 and data `[5]`; updating vector 100 to data `[3]`
(hash 3) succeeds, migrates the vector into a freshly created bucket 3 and
drops the emptied bucket 5, so afterwards a bucket contains vector 100
exactly when its id is 3. -/
theorem c6_update_migration_membership_witness :
    ((⟨some [⟨5, ⟨some [⟨[5], 0, [], 100⟩]⟩, 0, 0⟩],
        some ⟨1, 1, [[1]], [0], 1, LSHMetric.Euclidean⟩,
        some 1⟩ : BucketController).update_vector 100 (some [3]) none 7).2
      = Except.ok () ∧
    ∀ b ∈ ((((⟨some [⟨5, ⟨some [⟨[5], 0, [], 100⟩]⟩, 0, 0⟩],
        some ⟨1, 1, [[1]], [0], 1, LSHMetric.Euclidean⟩,
        some 1⟩ : BucketController).update_vector 100
          (some [3]) none 7).1).buckets.getD []),
      (b.contains_vector 100 = true ↔ b.id = 3) :=
  c6_update_migration_membership _ 100 [3] none 7
    ⟨1, 1, [[1]], [0], 1, LSHMetric.Euclidean⟩ 1
    [⟨5, ⟨some [⟨[5], 0, [], 100⟩]⟩, 0, 0⟩] 3 0
    rfl rfl rfl (by decide) rfl
    (lsh1_hash_eval 3 3 (by norm_num) (by norm_num) (by norm_num [two64]))
    (by decide) (by decide)
    (by intro j hj hj0; simp at hj; omega)
    (by decide)

theorem bucket_find_similar_ok (b : Bucket) (query : List ℚ) (k : Nat)
    (hb : 0 < b.size) :
    b.find_similar query k = Except.ok (spec_topk query
      (b.vectors_controller.vectors.getD []) k) := by
  unfold Bucket.find_similar VectorController.find_most_similar
  cases hvl : b.vectors_controller.vectors with
  | none =>
    exfalso
    unfold Bucket.size at hb
    rw [hvl] at hb
    simp at hb
  | some vl =>
    dsimp only
    have hvl0 : vl.isEmpty = false := by
      unfold Bucket.size at hb
      rw [hvl] at hb
      simp only [Option.getD_some] at hb
      cases vl with
      | nil => simp at hb
      | cons a as => rfl
    unfold VecDB.find_most_similar
    rw [if_neg (by simp [hvl0])]
    rfl

theorem collect_bucket_results_ok (query : List ℚ) (k : Nat) (bs : List Bucket)
    (hne : ∀ b ∈ bs, 0 < b.size) :
    collect_bucket_results query k bs = Except.ok ((bs.map (fun b =>
      (spec_topk query (b.vectors_controller.vectors.getD []) k).map
        (fun p => (b.hash_id, p.1, p.2)))).flatten) := by
  induction bs with
  | nil => rfl
  | cons b rest ih =>
    unfold collect_bucket_results
    rw [bucket_find_similar_ok b query k (hne b (List.mem_cons_self b rest))]
    rw [ih (fun x hx => hne x (List.mem_cons_of_mem b hx))]
    dsimp only
    rw [List.map_cons, List.flatten_cons]

theorem find_similar_spec_eq
    (cc : CollectionController) (name : String) (query : List ℚ) (k : Nat)
    (col : Collection) (l : LSH) (bs : List Bucket)
    (hget : cc.get_collection name = some col)
    (hlsh : col.buckets_controller.lsh = some l)
    (hdim : col.buckets_controller.dimension = some l.dimension)
    (hbk : col.buckets_controller.buckets = some bs)
    (hq : query.length = l.dimension)
    (hne : ∀ b ∈ bs, 0 < b.size) :
    cc.find_similar name query k =
      Except.ok (spec_find_similar bs query k (l.hash_value query)) := by
  have hh : l.hash query = some (l.hash_value query) := by
    unfold LSH.hash
    rw [if_pos hq]
  have hmulti : col.buckets_controller.find_similar_multi_bucket query k
      = Except.ok ((((bs.map (fun b =>
        (spec_topk query (b.vectors_controller.vectors.getD []) k).map
          (fun p => (b.hash_id, p.1, p.2)))).flatten).mergeSort
            score_desc).take k) := by
    unfold BucketController.find_similar_multi_bucket
    rw [hdim]
    dsimp only
    rw [if_neg (by simp [hq])]
    rw [hbk]
    simp only [Option.getD_some]
    rw [collect_bucket_results_ok query k bs hne]
  unfold CollectionController.find_similar
  rw [hget]
  dsimp only
  rw [hlsh]
  dsimp only
  rw [hh]
  dsimp only
  rw [hbk]
  dsimp only
  unfold spec_find_similar
  dsimp only
  cases hfq : bs.find? (fun b => b.hash_id == l.hash_value query) with
  | none =>
    dsimp only
    rw [if_neg (by simp)]
    rw [hmulti]
  | some bucket =>
    dsimp only
    by_cases hk : k ≤ bucket.size
    · rw [if_pos (by simp [hk]), if_pos hk]
      unfold BucketController.find_similar
      rw [hlsh]
      dsimp only
      rw [hdim]
      dsimp only
      rw [if_neg (by simp [hq])]
      rw [hh]
      dsimp only
      rw [hbk]
      simp only [Option.getD_some]
      rw [hfq]
      dsimp only
      have hbmem : bucket ∈ bs := List.mem_of_find?_eq_some hfq
      rw [bucket_find_similar_ok bucket query k (hne bucket hbmem)]
    · rw [if_neg (by simp [hk]), if_neg hk]
      rw [hmulti]

/-- C5 (corrected): with the collection found, the hasher present, the
stored dimension consistent with the hasher, the query of the configured
dimension and no empty bucket in the index, `find_similar` equals the
amended spec-level search: the primary-bucket fast path is taken exactly
when the bucket whose id is the query hash exists and holds at least k
vectors, returning its top-k tagged with its id; otherwise the per-bucket
top-k lists are flattened in bucket storage order, stable-sorted by
descending score and truncated to k, ties keeping the concatenation order
(bucket storage position, then in-bucket rank) — not the claimed
(bucket id ascending, in-bucket index ascending) order. -/
theorem c5_find_similar_fast_path_and_fallback
    (cc : CollectionController) (name : String) (query : List ℚ) (k : Nat)
    (col : Collection) (l : LSH) (bs : List Bucket)
    (hget : cc.get_collection name = some col)
    (hlsh : col.buckets_controller.lsh = some l)
    (hdim : col.buckets_controller.dimension = some l.dimension)
    (hbk : col.buckets_controller.buckets = some bs)
    (hq : query.length = l.dimension)
    (hne : ∀ b ∈ bs, 0 < b.size) :
    cc.find_similar name query k =
      Except.ok (spec_find_similar bs query k (l.hash_value query)) :=
  find_similar_spec_eq cc name query k col l bs hget hlsh hdim hbk hq hne

/-- C5 witness: a collection with two buckets of ids 5 and 3, each holding
one vector; a query of the configured dimension with no primary bucket
exercises the fallback, and the theorem applies with every hypothesis
discharged on the concrete state. -/
theorem c5_find_similar_fast_path_and_fallback_witness :
    ((⟨some [⟨"c", ⟨some [⟨5, ⟨some [⟨[5], 0, [], 100⟩]⟩, 0, 0⟩,
                           ⟨3, ⟨some [⟨[3], 0, [], 101⟩]⟩, 0, 0⟩],
                    some ⟨1, 1, [[1]], [0], 1, LSHMetric.Euclidean⟩,
                    some 1⟩, LSHMetric.Euclidean, 1, 7⟩]⟩ :
        CollectionController).find_similar "c" [1] 2) =
      Except.ok (spec_find_similar
        [⟨5, ⟨some [⟨[5], 0, [], 100⟩]⟩, 0, 0⟩,
         ⟨3, ⟨some [⟨[3], 0, [], 101⟩]⟩, 0, 0⟩] [1] 2
        ((⟨1, 1, [[1]], [0], 1, LSHMetric.Euclidean⟩ : LSH).hash_value [1])) :=
  c5_find_similar_fast_path_and_fallback _ "c" [1] 2
    ⟨"c", ⟨some [⟨5, ⟨some [⟨[5], 0, [], 100⟩]⟩, 0, 0⟩,
                 ⟨3, ⟨some [⟨[3], 0, [], 101⟩]⟩, 0, 0⟩],
          some ⟨1, 1, [[1]], [0], 1, LSHMetric.Euclidean⟩,
          some 1⟩, LSHMetric.Euclidean, 1, 7⟩
    ⟨1, 1, [[1]], [0], 1, LSHMetric.Euclidean⟩
    [⟨5, ⟨some [⟨[5], 0, [], 100⟩]⟩, 0, 0⟩,
     ⟨3, ⟨some [⟨[3], 0, [], 101⟩]⟩, 0, 0⟩]
    rfl rfl rfl rfl rfl (by decide)

/-- C5 counterexample: a collection whose index holds bucket 5 before
bucket 3 (the insertion order), one vector each, and a query on which both
vectors score exactly 1.  The code's fallback keeps the storage order and
returns bucket 5's hit before bucket 3's; the claimed tie-break
(bucket id ascending) would return bucket 3's hit first.  The two outputs
differ, refuting the claimed tie-break order. -/
theorem c5_tie_break_counterexample :
    ((⟨some [⟨"c", ⟨some [⟨5, ⟨some [⟨[5], 0, [], 100⟩]⟩, 0, 0⟩,
                           ⟨3, ⟨some [⟨[3], 0, [], 101⟩]⟩, 0, 0⟩],
                    some ⟨1, 1, [[1]], [0], 1, LSHMetric.Euclidean⟩,
                    some 1⟩, LSHMetric.Euclidean, 1, 7⟩]⟩ :
        CollectionController).find_similar "c" [1] 2
      = Except.ok [(5, 0, 1), (3, 0, 1)]) ∧
    (claim_find_similar ⟨some [⟨5, ⟨some [⟨[5], 0, [], 100⟩]⟩, 0, 0⟩,
                               ⟨3, ⟨some [⟨[3], 0, [], 101⟩]⟩, 0, 0⟩],
                         some ⟨1, 1, [[1]], [0], 1, LSHMetric.Euclidean⟩,
                         some 1⟩ [1] 2
      = Except.ok [(3, 0, 1), (5, 0, 1)]) ∧
    ([(5, 0, (1 : ℚ)), (3, 0, 1)] : List (Nat × Nat × ℚ))
      ≠ [(3, 0, 1), (5, 0, 1)] := by
  refine ⟨?_, ?_, by decide⟩
  · rw [find_similar_spec_eq
      ⟨some [⟨"c", ⟨some [⟨5, ⟨some [⟨[5], 0, [], 100⟩]⟩, 0, 0⟩,
                           ⟨3, ⟨some [⟨[3], 0, [], 101⟩]⟩, 0, 0⟩],
                    some ⟨1, 1, [[1]], [0], 1, LSHMetric.Euclidean⟩,
                    some 1⟩, LSHMetric.Euclidean, 1, 7⟩]⟩ "c" [1] 2
      ⟨"c", ⟨some [⟨5, ⟨some [⟨[5], 0, [], 100⟩]⟩, 0, 0⟩,
                   ⟨3, ⟨some [⟨[3], 0, [], 101⟩]⟩, 0, 0⟩],
            some ⟨1, 1, [[1]], [0], 1, LSHMetric.Euclidean⟩,
            some 1⟩, LSHMetric.Euclidean, 1, 7⟩
      ⟨1, 1, [[1]], [0], 1, LSHMetric.Euclidean⟩
      [⟨5, ⟨some [⟨[5], 0, [], 100⟩]⟩, 0, 0⟩,
       ⟨3, ⟨some [⟨[3], 0, [], 101⟩]⟩, 0, 0⟩]
      rfl rfl rfl rfl rfl (by decide)]
    have h1 := lsh1_hash_eval 1 1 (by norm_num) (by norm_num)
      (by norm_num [two64])
    unfold LSH.hash at h1
    simp at h1
    rw [h1]
    have ht5 : spec_topk [1] [⟨[5], 0, [], 100⟩] 2 = [(0, 1)] := by
      unfold spec_topk
      norm_num [List.enum, List.enumFrom, List.mergeSort, cosine_similarity,
        ratSqrt, isqrt, isqrtFuel]
    have ht3 : spec_topk [1] [⟨[3], 0, [], 101⟩] 2 = [(0, 1)] := by
      unfold spec_topk
      norm_num [List.enum, List.enumFrom, List.mergeSort, cosine_similarity,
        ratSqrt, isqrt, isqrtFuel]
    unfold spec_find_similar
    rw [show ([⟨5, ⟨some [⟨[5], 0, [], 100⟩]⟩, 0, 0⟩,
               ⟨3, ⟨some [⟨[3], 0, [], 101⟩]⟩, 0, 0⟩] : List Bucket).find?
        (fun b => b.hash_id == 1) = none from rfl]
    dsimp only
    simp only [List.map_cons, List.map_nil, Option.getD_some]
    rw [ht5, ht3]
    norm_num [List.mergeSort, score_desc, Bucket.hash_id,
      List.flatten_cons, List.flatten_nil]
  · unfold claim_find_similar
    dsimp only
    rw [if_neg (by simp)]
    rw [collect_bucket_results_ok [1] 2 _ (by decide)]
    have ht5 : spec_topk [1] [⟨[5], 0, [], 100⟩] 2 = [(0, 1)] := by
      unfold spec_topk
      norm_num [List.enum, List.enumFrom, List.mergeSort, cosine_similarity,
        ratSqrt, isqrt, isqrtFuel]
    have ht3 : spec_topk [1] [⟨[3], 0, [], 101⟩] 2 = [(0, 1)] := by
      unfold spec_topk
      norm_num [List.enum, List.enumFrom, List.mergeSort, cosine_similarity,
        ratSqrt, isqrt, isqrtFuel]
    simp only [List.map_cons, List.map_nil, Option.getD_some]
    rw [ht5, ht3]
    norm_num [List.mergeSort, claim_tie_sort, Bucket.hash_id,
      List.flatten_cons, List.flatten_nil]

/-- C4 (confirmed): on an input of the configured dimension, `LSH::hash`
returns exactly the polynomial fold of the per-projection bucket indices:
each scalar is computed by the configured metric, shifted by the offset,
divided by the bucket width and floored to a signed integer, reinterpreted
as an unsigned 64-bit word (two-s complement), and the results are combined
as the sum of `b_i * 31 ^ i` reduced modulo `2 ^ 64` — the closed form of
the wrapping loop.  The value is a pure function of the frozen hasher state
and the input, hence identical on every invocation and across restarts of a
process that rebuilds the same hasher. -/
theorem c4_hash_is_wrapping_polynomial_fold (l : LSH) (v : List ℚ)
    (hv : v.length = l.dimension) :
    l.hash v = some ((((List.range l.num_hashes).map (fun i =>
      ((⌊(l.compute_distance v (l.projections.getD i []) + l.offsets.getD i 0) /
          l.bucket_width⌋ : Int).emod (two64 : Int)).toNat * 31 ^ i)).sum) % two64) := by
  unfold LSH.hash LSH.hash_value
  rw [if_pos hv]
  have h := wrap_fold_closed_form (fun i =>
    ((⌊(l.compute_distance v (l.projections.getD i []) + l.offsets.getD i 0) /
        l.bucket_width⌋ : Int).emod (two64 : Int)).toNat) l.num_hashes
  exact congrArg (fun p => some p.1) h

/-- C4 witness: a two-projection Euclidean hasher on the vector `[3, -2]`:
the first bucket index is 3, the second is -2, whose `u64` cast is
`2 ^ 64 - 2`, and the fold yields `2 ^ 64 - 59`. -/
theorem c4_hash_is_wrapping_polynomial_fold_witness :
    (⟨2, 2, [[1, 0], [0, 1]], [1/2, 1/2], 1, LSHMetric.Euclidean⟩ : LSH).hash
        [3, -2] = some 18446744073709551557 := by
  have h := c4_hash_is_wrapping_polynomial_fold
    (⟨2, 2, [[1, 0], [0, 1]], [1/2, 1/2], 1, LSHMetric.Euclidean⟩ : LSH) [3, -2] rfl
  rw [h]
  norm_num [LSH.compute_distance, LSH.euclidean_distance, List.range_succ,
    List.foldl_cons, List.foldl_nil, List.getD]
  decide

/-- C8 (code bug exhibited): on a collection of dimension 4, a query of
length 3 does reach the hasher: `CollectionController::find_similar` hashes
the query before any dimension validation and `LSH::hash` panics, so the
caller gets a panic instead of the DimensionMismatch error the guarded
multi-bucket path (second conjunct) would produce; insert (third conjunct)
does reject the same vector with the DimensionMismatch error before any
hashing. -/
theorem c8_mismatched_query_reaches_hasher :
    CollectionController.find_similar
        ⟨some [Collection.new (some "docs") LSHMetric.Euclidean 4]⟩ "docs"
        [1, 2, 3] 1 =
      Except.error (RunError.panicked "vector dimension does not match the expected dimension") ∧
    (Collection.new (some "docs") LSHMetric.Euclidean 4).buckets_controller.find_similar_multi_bucket
        [1, 2, 3] 1 =
      Except.error (RunError.failure "vector dimension does not match the expected dimension") ∧
    (CollectionController.add_vector
        ⟨some [Collection.new (some "docs") LSHMetric.Euclidean 4]⟩ "docs"
        [1, 2, 3] [] 0).2 =
      Except.error (RunError.failure "vector dimension does not match the collection dimension") :=
  ⟨rfl, rfl, rfl⟩

/-- C10 (confirmed): updating a vector never recomputes its id.  First
conjunct: `VectorController::update_vector` leaves the stored `hash_id` of
every vector unchanged, whatever combination of new data and new metadata is
supplied, so each id stays the one assigned at insert time.  Second
conjunct: re-inserting an existing vector object (the bucket-migration path)
appends it unchanged and returns its existing id.  Third conjunct, the
consequence at a concrete input: after a metadata-changing update, the
stored id still equals the insert-time content hash and no longer equals the
64-bit hash of the vector-s current (data bit-pattern, timestamp, key-sorted
metadata) triple. -/
theorem c10_update_never_recomputes_id :
    (∀ (vc : VectorController) (id : Nat) (nd : Option (List ℚ))
        (nm : Option (List (String × String))),
        ((vc.update_vector id nd nm).1.vectors.getD []).map Vector.hash_id =
          (vc.vectors.getD []).map Vector.hash_id) ∧
    (∀ (vc : VectorController) (v : Vector) (now : Int),
        vc.add_vector none none none (some v) now =
          (⟨some (vc.vectors.getD [] ++ [v])⟩, v.hash_id)) ∧
    ((((VectorController.new.add_vector (some []) (some []) none none 0).1.update_vector
        (vector_calculate_hash [] 0 []) none (some [("a", "b")])).1.get_vector_by_id
        (vector_calculate_hash [] 0 [])) =
      some ⟨[], 0, [("a", "b")], vector_calculate_hash [] 0 []⟩ ∧
      vector_calculate_hash [] 0 [] ≠ vector_calculate_hash [] 0 [("a", "b")]) := by
  refine ⟨?_, fun vc v now => rfl, by decide⟩
  intro vc id nd nm
  cases hv : vc.vectors with
  | none => simp [VectorController.update_vector, hv]
  | some vectors =>
    by_cases hany : vectors.any (fun v => v.hash_id == id)
    · simp only [VectorController.update_vector, hv, hany, if_true]
      simpa using modifyFirst_map_eq (fun v => v.hash_id == id)
        (fun v => { v with data := nd.getD v.data, metadata := nm.getD v.metadata })
        Vector.hash_id (fun x => rfl) vectors
    · simp [VectorController.update_vector, hv, hany]

end VecDB
